import Mathlib

/-!
# Stellarium `Projector` (src/projector.h): projection and viewport engine

Shallow embedding of the inline member functions of class `Projector`.

Conventions of the embedding

* A C++ `double` (and `float`) is modelled by an exact rational number.  Rounding,
  infinities and NaN are outside the model; every comparison of the source is the
  comparison of the rational values.
* A C++ `int` is modelled by an integer.  The only integer arithmetic of the header
  is the corner sums `x + w`, `y + h` of the viewport in `check_in_viewport`; they are
  32-bit `int` sums and are reduced to the two's complement range (`wrapInt`), as the
  compiled code does on overflow.
* `Vec3d`, `Vec4i`, `Mat4d` come from `vecmath.h`, which is not among the sources.
  A vector is the function from its index to its component (`win[2]` is `win 2`),
  a `Mat4d` is the 4×4 matrix it represents in the OpenGL convention (it acts on
  column vectors).
* Member functions take the projector state explicitly.  The five projection entry
  points return the projector state after the call next to their results, so that
  their effect on the state can be stated.  The virtual member functions are those
  of the base class `Projector` (the perspective projector).
* The header calls `gluProject` and `gluUnProject` of the GLU library and relies on
  `init_project_matrix` of projector.cpp; none of them is among the sources.  The
  functions of the header take the two routines from an environment `Env`; the
  statements about the values they compute use the models `gluProject`,
  `gluUnProject` and `perspectiveMatrix` below, in exact arithmetic.
* The member functions that the header only declares (`setViewport`, `set_fov`,
  `set_clipping_planes`, `set_modelview_matrices`, `zoom_to`, `update_auto_zoom`,
  `init_project_matrix`) are defined in projector.cpp, which is not among the sources;
  they are modelled from the specification, each under a comment that says so.  A
  member function that can fail returns an `Outcome`: the projector after the call
  and the error, if any.
* `ShortcutLineEdit::getModifiers` (src/gui/ShortcutsDialog.cpp) works on Qt flag
  values, which are modelled by natural numbers with their bitwise operations.
* The shortcut editor `ShortcutLineEdit` and `ShortcutsDialog::prefixMatchKeySequence`
  (src/gui/ShortcutsDialog.cpp) work on Qt key codes and key sequences; an access to
  the array `m_keys` outside its four elements makes the result of the member
  function `none`.
* `TelescopeConfigurationDialog::buttonSavePressed`
  (plugins/TelescopeControl/src/gui/TelescopeConfigurationDialog.cpp) is modelled up
  to its call of `addTelescopeAtSlot`, with the Qt string functions as parameters.
-/

namespace Stellarium

/-- `Vec3d` of vecmath.h: three doubles, indexed like the source (`v[0]`, `v[1]`, `v[2]`). -/
abbrev Vec3d := Fin 3 → ℚ

/-- `Vec3f` of vecmath.h: three floats. -/
abbrev Vec3f := Fin 3 → ℚ

/-- `Vec4i` of vecmath.h: four ints; a viewport is `(x, y, width, height)`. -/
abbrev Vec4i := Fin 4 → ℤ

/-- `Mat4d` of vecmath.h: a 4×4 matrix of doubles. -/
abbrev Mat4d := Matrix (Fin 4) (Fin 4) ℚ

/-- `Projector::PROJECTOR_TYPE`. -/
inductive PROJECTOR_TYPE where
  | PERSPECTIVE_PROJECTOR
  | FISHEYE_PROJECTOR
  | CYLINDER_PROJECTOR
  | STEREOGRAPHIC_PROJECTOR
  | SPHERIC_MIRROR_PROJECTOR
  deriving DecidableEq, Repr

/-- `Projector::PROJECTOR_MASK_TYPE`. -/
inductive PROJECTOR_MASK_TYPE where
  | DISK
  | NONE
  deriving DecidableEq, Repr

/-- The struct `auto_zoom` of the class: data of the current automatic zoom. -/
structure auto_zoom where
  start : ℚ
  aim : ℚ
  speed : ℚ
  coef : ℚ
  deriving DecidableEq

/-- The data members of class `Projector`, in the order of the header. -/
structure Projector where
  maskType : PROJECTOR_MASK_TYPE
  fov : ℚ
  min_fov : ℚ
  max_fov : ℚ
  zNear : ℚ
  zFar : ℚ
  vec_viewport : Vec4i
  mat_projection : Mat4d
  mat_earth_equ_to_eye : Mat4d
  mat_j2000_to_eye : Mat4d
  mat_helio_to_eye : Mat4d
  mat_local_to_eye : Mat4d
  inv_mat_earth_equ_to_eye : Mat4d
  inv_mat_helio_to_eye : Mat4d
  inv_mat_local_to_eye : Mat4d
  zoom_move : auto_zoom
  flag_auto_zoom : Bool
  gravityLabels : Bool
  deriving DecidableEq

/-- What the header uses and does not define: the two GLU routines it calls, the
`transfo4d` method and the narrowing `Vec3d → Vec3f` conversion of vecmath.h, and
the constant `M_PI` of math.h.

* `gluProject v model proj viewport win` is the content of `win` after the call
  `gluProject(v[0],v[1],v[2],model,proj,viewport,&win[0],&win[1],&win[2])`
  (the routine may leave `win` as it was, so the old content is an argument).
* `gluUnProject x y z model proj viewport v` is the content of `v` after the call
  `gluUnProject(x,y,z,model,proj,viewport,&v[0],&v[1],&v[2])`.
* `transfo4d m v` is the content of `v` after `v.transfo4d(m)`.
* `toVec3f v` is the value of the implicit conversion of a `Vec3d` argument to a
  `const Vec3f&` parameter. -/
structure Env where
  gluProject : Vec3d → Mat4d → Mat4d → Vec4i → Vec3d → Vec3d
  gluUnProject : ℚ → ℚ → ℚ → Mat4d → Mat4d → Vec4i → Vec3d → Vec3d
  transfo4d : Mat4d → Vec3d → Vec3d
  toVec3f : Vec3d → Vec3f
  M_PI : ℚ

/-- Outcome of a member function with one output vector: the projector after the
call, the content of the output vector and the returned value. -/
structure Call (α : Type) where
  self : Projector
  out : Vec3d
  ret : α

/-- Outcome of a member function with two output vectors. -/
structure LineCall where
  self : Projector
  out1 : Vec3d
  out2 : Vec3d
  ret : Bool

/-- Modelled from the spec: the macro `MY_MIN` of stellarium.h (not among the sources),
which yields "the smaller viewport dimension": the smaller of its two arguments. -/
def MY_MIN (a b : ℤ) : ℤ := if a < b then a else b

/-- `Projector::getType` of the base class. -/
def getType (_P : Projector) : PROJECTOR_TYPE := PROJECTOR_TYPE.PERSPECTIVE_PROJECTOR

/-- `Projector::getMaskType`. -/
def getMaskType (P : Projector) : PROJECTOR_MASK_TYPE := P.maskType

/-- `Projector::setMaskType`. -/
def setMaskType (P : Projector) (m : PROJECTOR_MASK_TYPE) : Projector := { P with maskType := m }

/-- `Projector::getViewportPosX`. -/
def getViewportPosX (P : Projector) : ℤ := P.vec_viewport 0

/-- `Projector::getViewportPosY`. -/
def getViewportPosY (P : Projector) : ℤ := P.vec_viewport 1

/-- `Projector::getViewportWidth`. -/
def getViewportWidth (P : Projector) : ℤ := P.vec_viewport 2

/-- `Projector::getViewportHeight`. -/
def getViewportHeight (P : Projector) : ℤ := P.vec_viewport 3

/-- `Projector::getViewport`. -/
def getViewport (P : Projector) : Vec4i := P.vec_viewport

/-- `Projector::get_fov`. -/
def get_fov (P : Projector) : ℚ := P.fov

/-- `Projector::getRadPerPixel`:
`1.0/fov*180./M_PI*MY_MIN(getViewportWidth(),getViewportHeight())`. -/
def getRadPerPixel (E : Env) (P : Projector) : ℚ :=
  1 / P.fov * 180 / E.M_PI * ((MY_MIN (getViewportWidth P) (getViewportHeight P) : ℤ) : ℚ)

/-- `Projector::getMaxFov`. -/
def getMaxFov (P : Projector) : ℚ := P.max_fov

/-- `Projector::getAimFov`: `if (flag_auto_zoom) return zoom_move.aim; else return fov;`. -/
def getAimFov (P : Projector) : ℚ := if P.flag_auto_zoom then P.zoom_move.aim else P.fov

/-- `Projector::get_clipping_planes`: the pair written to `*zn`, `*zf`. -/
def get_clipping_planes (P : Projector) : ℚ × ℚ := (P.zNear, P.zFar)

/-- The value of a 32-bit C++ `int` whose mathematical value is `z`: `z` itself when it
lies between `INT_MIN = -2147483648` and `INT_MAX = 2147483647`, and `z` reduced
modulo `2^32` to that range otherwise (two's complement wrap-around). -/
def wrapInt (z : ℤ) : ℤ := (z + 2147483648) % 4294967296 - 2147483648

/-- The integer `z` is representable as a 32-bit C++ `int`. -/
def intInRange (z : ℤ) : Prop := -2147483648 ≤ z ∧ z ≤ 2147483647

instance (z : ℤ) : Decidable (intInRange z) :=
  inferInstanceAs (Decidable (-2147483648 ≤ z ∧ z ≤ 2147483647))

/-- `Projector::check_in_viewport`: the four comparisons in the order of the source.
The corner sums `vec_viewport[1] + vec_viewport[3]` and `vec_viewport[0] +
vec_viewport[2]` are `int` sums; the ints are converted to double for the
comparison. -/
def check_in_viewport (P : Projector) (pos : Vec3d) : Bool :=
  decide (pos 1 > ((P.vec_viewport 1 : ℤ) : ℚ)) &&
  decide (pos 1 < ((wrapInt (P.vec_viewport 1 + P.vec_viewport 3) : ℤ) : ℚ)) &&
  decide (pos 0 > ((P.vec_viewport 0 : ℤ) : ℚ)) &&
  decide (pos 0 < ((wrapInt (P.vec_viewport 0 + P.vec_viewport 2) : ℤ) : ℚ))

/-- `Projector::project_custom`: calls `gluProject` with the given modelview matrix,
the projection matrix and the viewport of the projector, then returns `win[2] < 1.`. -/
def project_custom (E : Env) (P : Projector) (v : Vec3d) (win : Vec3d) (mat : Mat4d) :
    Call Bool :=
  let win1 := E.gluProject v mat P.mat_projection P.vec_viewport win
  { self := P, out := win1, ret := decide (win1 2 < 1) }

/-- `Projector::project_custom_check`:
`project_custom(v, win, mat) && check_in_viewport(win)`; the second operand is
evaluated only when the first is true.  The `Vec3f` argument is widened to the
`Vec3d` parameter of `project_custom`, which keeps its value. -/
def project_custom_check (E : Env) (P : Projector) (v : Vec3f) (win : Vec3d) (mat : Mat4d) :
    Call Bool :=
  let c := project_custom E P v win mat
  if c.ret then { self := c.self, out := c.out, ret := check_in_viewport c.self c.out }
  else { self := c.self, out := c.out, ret := false }

/-- `Projector::project_custom_line_check`:
`project_custom(v1, win1, mat) && project_custom(v2, win2, mat) &&
(check_in_viewport(win1) || check_in_viewport(win2))`, with the short-circuit
evaluation of `&&`: the second point is projected only when the first call
returned true. -/
def project_custom_line_check (E : Env) (P : Projector) (v1 : Vec3f) (win1 : Vec3d)
    (v2 : Vec3f) (win2 : Vec3d) (mat : Mat4d) : LineCall :=
  let c1 := project_custom E P v1 win1 mat
  if c1.ret then
    let c2 := project_custom E c1.self v2 win2 mat
    if c2.ret then
      { self := c2.self, out1 := c1.out, out2 := c2.out,
        ret := check_in_viewport c2.self c1.out || check_in_viewport c2.self c2.out }
    else { self := c2.self, out1 := c1.out, out2 := c2.out, ret := false }
  else { self := c1.self, out1 := c1.out, out2 := win2, ret := false }

/-- `Projector::unproject_custom`:
`gluUnProject(x,y,1.,mat,mat_projection,vec_viewport,&v[0],&v[1],&v[2])`. -/
def unproject_custom (E : Env) (P : Projector) (x y : ℚ) (v : Vec3d) (mat : Mat4d) :
    Call Unit :=
  { self := P, out := E.gluUnProject x y 1 mat P.mat_projection P.vec_viewport v, ret := () }

/-- `Projector::unproject` (protected): sets `v` to the normalised device point of the
screen point and applies `transfo4d(m)` to it. -/
def unproject (E : Env) (P : Projector) (x y : ℚ) (m : Mat4d) (_v : Vec3d) : Call Unit :=
  let v1 : Vec3d :=
    ![(x - ((P.vec_viewport 0 : ℤ) : ℚ)) * 2 / ((P.vec_viewport 2 : ℤ) : ℚ) - 1,
      (y - ((P.vec_viewport 1 : ℤ) : ℚ)) * 2 / ((P.vec_viewport 3 : ℤ) : ℚ) - 1,
      1]
  { self := P, out := E.transfo4d m v1, ret := () }

/-- `Projector::project_earth_equ`. -/
def project_earth_equ (E : Env) (P : Projector) (v : Vec3d) (win : Vec3d) : Call Bool :=
  project_custom E P v win P.mat_earth_equ_to_eye

/-- `Projector::project_earth_equ_check`; the `Vec3d` argument is converted to the
`Vec3f` parameter of `project_custom_check`. -/
def project_earth_equ_check (E : Env) (P : Projector) (v : Vec3d) (win : Vec3d) : Call Bool :=
  project_custom_check E P (E.toVec3f v) win P.mat_earth_equ_to_eye

/-- `Projector::project_earth_equ_line_check`. -/
def project_earth_equ_line_check (E : Env) (P : Projector) (v1 : Vec3d) (win1 : Vec3d)
    (v2 : Vec3d) (win2 : Vec3d) : LineCall :=
  project_custom_line_check E P (E.toVec3f v1) win1 (E.toVec3f v2) win2 P.mat_earth_equ_to_eye

/-- `Projector::unproject_earth_equ`. -/
def unproject_earth_equ (E : Env) (P : Projector) (x y : ℚ) (v : Vec3d) : Call Unit :=
  unproject E P x y P.inv_mat_earth_equ_to_eye v

/-- `Projector::project_j2000`. -/
def project_j2000 (E : Env) (P : Projector) (v : Vec3d) (win : Vec3d) : Call Bool :=
  project_custom E P v win P.mat_j2000_to_eye

/-- `Projector::project_j2000_check`. -/
def project_j2000_check (E : Env) (P : Projector) (v : Vec3d) (win : Vec3d) : Call Bool :=
  project_custom_check E P (E.toVec3f v) win P.mat_j2000_to_eye

/-- `Projector::project_j2000_line_check`. -/
def project_j2000_line_check (E : Env) (P : Projector) (v1 : Vec3d) (win1 : Vec3d)
    (v2 : Vec3d) (win2 : Vec3d) : LineCall :=
  project_custom_line_check E P (E.toVec3f v1) win1 (E.toVec3f v2) win2 P.mat_j2000_to_eye

/-- `Projector::project_helio_check`. -/
def project_helio_check (E : Env) (P : Projector) (v : Vec3d) (win : Vec3d) : Call Bool :=
  project_custom_check E P (E.toVec3f v) win P.mat_helio_to_eye

/-- `Projector::project_helio`. -/
def project_helio (E : Env) (P : Projector) (v : Vec3d) (win : Vec3d) : Call Bool :=
  project_custom E P v win P.mat_helio_to_eye

/-- `Projector::project_helio_line_check`. -/
def project_helio_line_check (E : Env) (P : Projector) (v1 : Vec3d) (win1 : Vec3d)
    (v2 : Vec3d) (win2 : Vec3d) : LineCall :=
  project_custom_line_check E P (E.toVec3f v1) win1 (E.toVec3f v2) win2 P.mat_helio_to_eye

/-- `Projector::unproject_helio`. -/
def unproject_helio (E : Env) (P : Projector) (x y : ℚ) (v : Vec3d) : Call Unit :=
  unproject E P x y P.inv_mat_helio_to_eye v

/-- `Projector::project_local`. -/
def project_local (E : Env) (P : Projector) (v : Vec3d) (win : Vec3d) : Call Bool :=
  project_custom E P v win P.mat_local_to_eye

/-- `Projector::project_local_check`. -/
def project_local_check (E : Env) (P : Projector) (v : Vec3d) (win : Vec3d) : Call Bool :=
  project_custom_check E P (E.toVec3f v) win P.mat_local_to_eye

/-- `Projector::unproject_local`. -/
def unproject_local (E : Env) (P : Projector) (x y : ℚ) (v : Vec3d) : Call Unit :=
  unproject E P x y P.inv_mat_local_to_eye v

/-- A projector state used to evaluate the functions on concrete inputs: viewport
`(0, 0, 10, 10)`, fov 60 degrees, identity matrices, no zoom in progress. -/
def sampleProjector : Projector :=
  { maskType := PROJECTOR_MASK_TYPE.NONE
    fov := 60
    min_fov := 1
    max_fov := 180
    zNear := 1
    zFar := 2
    vec_viewport := ![0, 0, 10, 10]
    mat_projection := 1
    mat_earth_equ_to_eye := 1
    mat_j2000_to_eye := 1
    mat_helio_to_eye := 1
    mat_local_to_eye := 1
    inv_mat_earth_equ_to_eye := 1
    inv_mat_helio_to_eye := 1
    inv_mat_local_to_eye := 1
    zoom_move := { start := 60, aim := 20, speed := 1, coef := 0 }
    flag_auto_zoom := false
    gravityLabels := false }

/-- The claim of the viewport containment as the specification words it: both
coordinates in the half-open intervals `[x, x+w)` and `[y, y+h)`. -/
def inHalfOpenViewport (P : Projector) (pos : Vec3d) : Prop :=
  ((P.vec_viewport 0 : ℤ) : ℚ) ≤ pos 0 ∧ pos 0 < ((P.vec_viewport 0 + P.vec_viewport 2 : ℤ) : ℚ) ∧
  ((P.vec_viewport 1 : ℤ) : ℚ) ≤ pos 1 ∧ pos 1 < ((P.vec_viewport 1 + P.vec_viewport 3 : ℤ) : ℚ)

/-- Homogeneous coordinates `(v[0], v[1], v[2], 1)` of a point, the vector `in` that
the GLU routines build from their three scalar arguments. -/
def hom (v : Vec3d) : Fin 4 → ℚ := ![v 0, v 1, v 2, 1]

/-- Modelled from the spec: the GLU library routine `gluProject`, which the header calls
and does not define ("Perspective is a direct divide-by-depth projection"; the header
calls the projection "reimplementation of gluProject").  The object point is
transformed by the modelview and the projection matrix; when the resulting `w` is
zero the routine returns `GL_FALSE` and writes nothing, otherwise it divides by `w`,
maps x, y, z from `[-1, 1]` to `[0, 1]`, maps x, y to the viewport and writes the
window coordinates. -/
def gluProject (v : Vec3d) (model proj : Mat4d) (viewport : Vec4i) (win : Vec3d) : Vec3d :=
  let eye := model.mulVec (hom v)
  let clip := proj.mulVec eye
  if clip 3 = 0 then win
  else
    ![(clip 0 / clip 3 * (1 / 2) + 1 / 2) * ((viewport 2 : ℤ) : ℚ) + ((viewport 0 : ℤ) : ℚ),
      (clip 1 / clip 3 * (1 / 2) + 1 / 2) * ((viewport 3 : ℤ) : ℚ) + ((viewport 1 : ℤ) : ℚ),
      clip 2 / clip 3 * (1 / 2) + 1 / 2]

/-- Modelled from the spec: the matrix inversion inside `gluUnProject` (GLU library, not
among the sources): the inverse by cofactors, which fails when the determinant is
zero. -/
def invertMatrix (m : Mat4d) : Option Mat4d :=
  if m.det = 0 then none else some (m.det⁻¹ • m.adjugate)

/-- Modelled from the spec: the GLU library routine `gluUnProject`, which the header
calls and does not define ("the exact algebraic inverse of `forward`").  The product
of projection and modelview matrix is inverted (on failure nothing is written); the
window point is mapped from the viewport to `[-1, 1]`, transformed by the inverse
and divided by its `w` (when that is zero nothing is written). -/
def gluUnProject (winx winy winz : ℚ) (model proj : Mat4d) (viewport : Vec4i) (v : Vec3d) :
    Vec3d :=
  match invertMatrix (proj * model) with
  | none => v
  | some inv =>
    let inp : Fin 4 → ℚ :=
      ![(winx - ((viewport 0 : ℤ) : ℚ)) / ((viewport 2 : ℤ) : ℚ) * 2 - 1,
        (winy - ((viewport 1 : ℤ) : ℚ)) / ((viewport 3 : ℤ) : ℚ) * 2 - 1,
        winz * 2 - 1,
        1]
    let out := inv.mulVec inp
    if out 3 = 0 then v else ![out 0 / out 3, out 1 / out 3, out 2 / out 3]

/-- Modelled from the spec: the matrix that `Projector::init_project_matrix` (declared in
the header as "a reimplementation of gluPerspective", defined in projector.cpp, which is
not among the sources) stores in `mat_projection`: "a standard frustum
(perspective-style) matrix parameterized by fov, aspect ratio (width/height), near,
far".  `f` stands for the cotangent of half the field of view. -/
def perspectiveMatrix (f aspect zNear zFar : ℚ) : Mat4d :=
  !![f / aspect, 0, 0, 0;
     0, f, 0, 0;
     0, 0, (zFar + zNear) / (zNear - zFar), 2 * zFar * zNear / (zNear - zFar);
     0, 0, -1, 0]

/-- Depth of a point in eye space under the modelview matrix `mat`: the distance in
front of the observer along the optical axis (the observer looks down the negative
z axis); it is negative for a point behind the observer. -/
def eyeDepth (mat : Mat4d) (v : Vec3d) : ℚ := -(mat.mulVec (hom v)) 2

/-- A point is not behind the observer when its depth in eye space is positive. -/
def notBehindObserver (mat : Mat4d) (v : Vec3d) : Prop := 0 < eyeDepth mat v

instance (mat : Mat4d) (v : Vec3d) : Decidable (notBehindObserver mat v) :=
  inferInstanceAs (Decidable (0 < eyeDepth mat v))

/-- An environment whose GLU routines are the modelled ones; `transfo4d`, the
narrowing conversion and `M_PI` are taken from `E`. -/
def withGlu (E : Env) : Env :=
  { E with gluProject := gluProject, gluUnProject := gluUnProject }

/-- An environment used to evaluate the functions on concrete inputs. -/
def sampleEnv : Env :=
  { gluProject := gluProject
    gluUnProject := gluUnProject
    transfo4d := fun m v => ![(m.mulVec (hom v)) 0, (m.mulVec (hom v)) 1, (m.mulVec (hom v)) 2]
    toVec3f := fun v => v
    M_PI := 355 / 113 }

/-- The sample projector with the perspective matrix of focal factor 1, aspect 1 and
clipping planes `zNear = 1`, `zFar = 2`. -/
def samplePerspective : Projector :=
  { sampleProjector with mat_projection := perspectiveMatrix 1 1 1 2 }

/-- Perspective division: the point whose homogeneous coordinates are `h`. -/
def dehom (h : Fin 4 → ℚ) : Vec3d := ![h 0 / h 3, h 1 / h 3, h 2 / h 3]

/-- Inverse of `perspectiveMatrix f aspect zNear zFar`, written out. -/
def perspectiveInverse (f aspect zNear zFar : ℚ) : Mat4d :=
  !![aspect / f, 0, 0, 0;
     0, 1 / f, 0, 0;
     0, 0, 0, -1;
     0, 0, (zNear - zFar) / (2 * zFar * zNear), (zFar + zNear) / (2 * zFar * zNear)]

/-- `Projector::setFlagGravityLabels`. -/
def setFlagGravityLabels (P : Projector) (gravity : Bool) : Projector :=
  { P with gravityLabels := gravity }

/-- `Projector::getFlagGravityLabels`. -/
def getFlagGravityLabels (P : Projector) : Bool := P.gravityLabels

/-- The four reference frames in which the header offers projections. -/
inductive Frame where
  | EquOfDate
  | J2000
  | Helio
  | Local
  deriving DecidableEq, Repr

/-- The forward (frame to eye) matrix member of each frame: `mat_earth_equ_to_eye`,
`mat_j2000_to_eye`, `mat_helio_to_eye`, `mat_local_to_eye`. -/
def forwardMatrix (P : Projector) : Frame → Mat4d
  | Frame.EquOfDate => P.mat_earth_equ_to_eye
  | Frame.J2000 => P.mat_j2000_to_eye
  | Frame.Helio => P.mat_helio_to_eye
  | Frame.Local => P.mat_local_to_eye

/-- The inverse matrix member that the header declares for a frame, if it declares
one: `inv_mat_earth_equ_to_eye`, `inv_mat_helio_to_eye`, `inv_mat_local_to_eye`;
the class has no inverse matrix for the J2000 frame. -/
def inverseMatrix (P : Projector) : Frame → Option Mat4d
  | Frame.EquOfDate => some P.inv_mat_earth_equ_to_eye
  | Frame.J2000 => none
  | Frame.Helio => some P.inv_mat_helio_to_eye
  | Frame.Local => some P.inv_mat_local_to_eye

/-- The unproject member function that the header declares for a frame, if it
declares one, called on the screen point `(x, y)`: `unproject_earth_equ`,
`unproject_helio`, `unproject_local`; the class has no `unproject_j2000`. -/
def unproject_frame (E : Env) (P : Projector) (x y : ℚ) (v : Vec3d) :
    Frame → Option (Call Unit)
  | Frame.EquOfDate => some (unproject_earth_equ E P x y v)
  | Frame.J2000 => none
  | Frame.Helio => some (unproject_helio E P x y v)
  | Frame.Local => some (unproject_local E P x y v)

/-- The claim about the inverse matrices as the specification words it, for one
frame: the state holds an inverse matrix for the frame and the unproject operation of
the frame is `unproject` with that matrix. -/
def hasInverseAndUnproject (E : Env) (P : Projector) (x y : ℚ) (v : Vec3d) (fr : Frame) :
    Prop :=
  ∃ m, inverseMatrix P fr = some m ∧ unproject_frame E P x y v fr = some (unproject E P x y m v)

/-- The error taxonomy of the specification. -/
inductive ProjectorError where
  | InvalidViewport
  | InvalidClippingRange
  | InvalidTessellation
  | DegenerateInput
  deriving DecidableEq, Repr

/-- Outcome of a member function that can fail: the projector after the call and the
error raised, if any. -/
structure Outcome where
  self : Projector
  error : Option ProjectorError

/-- Modelled from the spec: `Projector::init_project_matrix` (defined in projector.cpp, which
is not among the sources; the header: "Init the viewing matrix from the fov, the
clipping planes and screen ratio"), which "derives a standard frustum
(perspective-style) matrix parameterized by fov, aspect ratio (width/height), near,
far".  `focal fov` stands for the cotangent of half the field of view `fov`.  The
setters below recompute the matrix at once: the class has no member that could mark
it as to be recomputed later. -/
def init_project_matrix (focal : ℚ → ℚ) (P : Projector) : Projector :=
  { P with
    mat_projection :=
      perspectiveMatrix (focal P.fov)
        (((P.vec_viewport 2 : ℤ) : ℚ) / ((P.vec_viewport 3 : ℤ) : ℚ)) P.zNear P.zFar }

/-- The value that the clamped setter stores for the request `f`: `f` brought into
`[min_fov, max_fov]`. -/
def clampFov (P : Projector) (f : ℚ) : ℚ :=
  if f < P.min_fov then P.min_fov else if f > P.max_fov then P.max_fov else f

/-- Modelled from the spec: `Projector::set_fov` (defined in projector.cpp, which is not
among the sources): "clamps to [min,max]; on change marks projection matrix dirty
and, if a zoom animation is active, aborts it". -/
def set_fov (focal : ℚ → ℚ) (P : Projector) (f : ℚ) : Projector :=
  if clampFov P f = P.fov then P
  else init_project_matrix focal { P with fov := clampFov P f, flag_auto_zoom := false }

/-- Modelled from the spec: `Projector::setViewport(int x, int y, int w, int h)` (defined
in projector.cpp, which is not among the sources): "validates w>0,h>0 (fails with
`InvalidViewport` otherwise); on success marks the projection matrix dirty". -/
def setViewport (focal : ℚ → ℚ) (P : Projector) (x y w h : ℤ) : Outcome :=
  if 0 < w ∧ 0 < h then
    { self := init_project_matrix focal { P with vec_viewport := ![x, y, w, h] }, error := none }
  else { self := P, error := some ProjectorError.InvalidViewport }

/-- `Projector::setViewport(const Vec4i& v)`: `setViewport(v[0], v[1], v[2], v[3])`. -/
def setViewportVec (focal : ℚ → ℚ) (P : Projector) (v : Vec4i) : Outcome :=
  setViewport focal P (v 0) (v 1) (v 2) (v 3)

/-- `Projector::setViewportPosX`. -/
def setViewportPosX (focal : ℚ → ℚ) (P : Projector) (x : ℤ) : Outcome :=
  setViewport focal P x (P.vec_viewport 1) (P.vec_viewport 2) (P.vec_viewport 3)

/-- `Projector::setViewportPosY`. -/
def setViewportPosY (focal : ℚ → ℚ) (P : Projector) (y : ℤ) : Outcome :=
  setViewport focal P (P.vec_viewport 0) y (P.vec_viewport 2) (P.vec_viewport 3)

/-- `Projector::setViewportWidth`. -/
def setViewportWidth (focal : ℚ → ℚ) (P : Projector) (width : ℤ) : Outcome :=
  setViewport focal P (P.vec_viewport 0) (P.vec_viewport 1) width (P.vec_viewport 3)

/-- `Projector::setViewportHeight`. -/
def setViewportHeight (focal : ℚ → ℚ) (P : Projector) (height : ℤ) : Outcome :=
  setViewport focal P (P.vec_viewport 0) (P.vec_viewport 1) (P.vec_viewport 2) height

/-- A call of one of the viewport setters of the header. -/
inductive ViewportCall where
  | setViewport (x y w h : ℤ)
  | setViewportVec (v : Vec4i)
  | setViewportPosX (x : ℤ)
  | setViewportPosY (y : ℤ)
  | setViewportWidth (width : ℤ)
  | setViewportHeight (height : ℤ)

/-- The outcome of one viewport setter call. -/
def ViewportCall.run (focal : ℚ → ℚ) (P : Projector) : ViewportCall → Outcome
  | ViewportCall.setViewport x y w h => Stellarium.setViewport focal P x y w h
  | ViewportCall.setViewportVec v => Stellarium.setViewportVec focal P v
  | ViewportCall.setViewportPosX x => Stellarium.setViewportPosX focal P x
  | ViewportCall.setViewportPosY y => Stellarium.setViewportPosY focal P y
  | ViewportCall.setViewportWidth width => Stellarium.setViewportWidth focal P width
  | ViewportCall.setViewportHeight height => Stellarium.setViewportHeight focal P height

/-- The projector after a sequence of viewport setter calls, failed calls included. -/
def runViewportCalls (focal : ℚ → ℚ) (P : Projector) : List ViewportCall → Projector
  | [] => P
  | c :: cs => runViewportCalls focal (c.run focal P).self cs

/-- Modelled from the spec: `Projector::set_clipping_planes` (defined in projector.cpp,
which is not among the sources): "fails with `InvalidClippingRange` if near≤0 or
far≤near"; on success the planes are stored and the projection matrix, which depends
on them, is recomputed. -/
def set_clipping_planes (focal : ℚ → ℚ) (P : Projector) (znear zfar : ℚ) : Outcome :=
  if 0 < znear ∧ znear < zfar then
    { self := init_project_matrix focal { P with zNear := znear, zFar := zfar }, error := none }
  else { self := P, error := some ProjectorError.InvalidClippingRange }

/-- The projector after a sequence of `set_clipping_planes` calls, failed calls
included. -/
def runClippingCalls (focal : ℚ → ℚ) (P : Projector) : List (ℚ × ℚ) → Projector
  | [] => P
  | c :: cs => runClippingCalls focal (set_clipping_planes focal P c.1 c.2).self cs

/-- Modelled from the spec: the inversion used for the stored inverse matrices, which "must
fail gracefully to identity": the inverse when the matrix is invertible, the identity
otherwise (the flag of the degenerate condition has no member in the class and is
left out). -/
def inverseOrIdentity (m : Mat4d) : Mat4d :=
  match invertMatrix m with
  | some i => i
  | none => 1

/-- Modelled from the spec: `Projector::set_modelview_matrices` (defined in projector.cpp,
which is not among the sources): "all four 4×4 matrices supplied together, atomically;
inverses computed immediately".  What is inverted is taken from the header, whose
comments on the three inverse members read "Inverse of
mat_projection*mat_earth_equ_to_eye" (and likewise for helio and local) and whose
`unproject` calls its matrix argument "the already inverted full tranfo matrix". -/
def set_modelview_matrices (P : Projector) (_mat_earth_equ_to_eye _mat_helio_to_eye
    _mat_local_to_eye _mat_j2000_to_eye : Mat4d) : Projector :=
  { P with
    mat_earth_equ_to_eye := _mat_earth_equ_to_eye
    mat_j2000_to_eye := _mat_j2000_to_eye
    mat_helio_to_eye := _mat_helio_to_eye
    mat_local_to_eye := _mat_local_to_eye
    inv_mat_earth_equ_to_eye := inverseOrIdentity (P.mat_projection * _mat_earth_equ_to_eye)
    inv_mat_helio_to_eye := inverseOrIdentity (P.mat_projection * _mat_helio_to_eye)
    inv_mat_local_to_eye := inverseOrIdentity (P.mat_projection * _mat_local_to_eye) }

/-- Modelled from the spec: `Projector::zoom_to` (defined in projector.cpp, which is not
among the sources): "Idle→Animating on `zoomTo(targetFov, durationSeconds)`"; "a new
request overwrites the previous one using the *current* interpolated fov as the new
start".  In the members of `auto_zoom`, `coef` is the elapsed fraction of the
animation and `speed` the fraction that elapses per unit of time. -/
def zoom_to (P : Projector) (aim_fov : ℚ) (move_duration : ℚ) : Projector :=
  { P with
    zoom_move := { start := P.fov, aim := aim_fov, speed := 1 / move_duration, coef := 0 }
    flag_auto_zoom := true }

/-- Modelled from the spec: `Projector::update_auto_zoom` (defined in projector.cpp, which
is not among the sources): "if Idle, no-op; if Animating, advances elapsed time,
computes interpolation fraction via an ease function ... and writes the interpolated
fov into ViewportState via its clamped setter"; "Animating→Idle when elapsed time ≥
durationSeconds (snaps exactly to targetFov, no overshoot)".  The ease function is
left open by the specification and is the parameter `ease`.  The header declares
`delta_time` as an int and names no unit; here it is the elapsed time in the unit of
the duration given to `zoom_to`.  Both the interpolated value and the final target
are written through the clamp of `set_fov` (the "clamped setter", which keeps
"min ≤ current ≤ max at all observable times"), without the cancellation of the zoom
that `set_fov` performs. -/
def update_auto_zoom (ease : ℚ → ℚ) (focal : ℚ → ℚ) (P : Projector) (delta_time : ℚ) :
    Projector :=
  if P.flag_auto_zoom then
    if P.zoom_move.coef + P.zoom_move.speed * delta_time ≥ 1 then
      init_project_matrix focal
        { P with
          fov := clampFov P P.zoom_move.aim
          zoom_move := { P.zoom_move with coef := 1 }
          flag_auto_zoom := false }
    else
      init_project_matrix focal
        { P with
          fov := clampFov P (P.zoom_move.start + (P.zoom_move.aim - P.zoom_move.start) *
            ease (P.zoom_move.coef + P.zoom_move.speed * delta_time))
          zoom_move :=
            { P.zoom_move with coef := P.zoom_move.coef + P.zoom_move.speed * delta_time } }
  else P

/-- `Qt::ShiftModifier` of the Qt library. -/
def Qt.ShiftModifier : ℕ := 0x02000000

/-- `Qt::ControlModifier` of the Qt library. -/
def Qt.ControlModifier : ℕ := 0x04000000

/-- `Qt::AltModifier` of the Qt library. -/
def Qt.AltModifier : ℕ := 0x08000000

/-- `Qt::MetaModifier` of the Qt library. -/
def Qt.MetaModifier : ℕ := 0x10000000

/-- `Qt::SHIFT` of the Qt library. -/
def Qt.SHIFT : ℕ := 0x02000000

/-- `Qt::META` of the Qt library. -/
def Qt.META : ℕ := 0x10000000

/-- `Qt::CTRL` of the Qt library. -/
def Qt.CTRL : ℕ := 0x04000000

/-- `Qt::ALT` of the Qt library. -/
def Qt.ALT : ℕ := 0x08000000

/-- A `QChar` as far as the shortcut editor looks at it: the answers of the Qt
library to `isPrint()`, `isLetterOrNumber()` and `isSpace()`. -/
structure QChar where
  isPrint : Bool
  isLetterOrNumber : Bool
  isSpace : Bool
  deriving DecidableEq, Repr

/-- A `QString`: the sequence of its characters. -/
abbrev QString := List QChar

/-- `ShortcutLineEdit::getModifiers` (src/gui/ShortcutsDialog.cpp).  `state` is the
value of the `Qt::KeyboardModifiers` flags; a flag test `state & Qt::XModifier` is
true when the bitwise and is not zero.  `text.at(0)` is evaluated only when the text
is not empty. -/
def getModifiers (state : ℕ) (text : QString) : ℕ :=
  let result0 : ℕ := 0
  let result1 :=
    if (state &&& Qt.ShiftModifier ≠ 0) ∧
        (match text with
          | [] => true
          | c :: _ => !c.isPrint || c.isLetterOrNumber || c.isSpace) = true then
      result0 ||| Qt.SHIFT
    else result0
  let result2 := if state &&& Qt.ControlModifier ≠ 0 then result1 ||| Qt.CTRL else result1
  let result3 := if state &&& Qt.MetaModifier ≠ 0 then result2 ||| Qt.META else result2
  let result4 := if state &&& Qt.AltModifier ≠ 0 then result3 ||| Qt.ALT else result3
  result4

/-- `Qt::Key_Shift` of the Qt library. -/
def Qt.Key_Shift : ℕ := 0x01000020

/-- `Qt::Key_Control` of the Qt library. -/
def Qt.Key_Control : ℕ := 0x01000021

/-- `Qt::Key_Meta` of the Qt library. -/
def Qt.Key_Meta : ℕ := 0x01000022

/-- `Qt::Key_Alt` of the Qt library. -/
def Qt.Key_Alt : ℕ := 0x01000023

/-- A `QKeySequence` of the Qt library: up to four key codes, stored in four slots
(`QKeySequence(k1, k2, k3, k4)`); a slot that holds 0 ends the sequence. -/
structure QKeySequence where
  key : Fin 4 → ℕ
  deriving DecidableEq

/-- `QKeySequence::count()` of the Qt library: the number of keys, at most 4: the
index of the first slot that holds 0. -/
def QKeySequence.count (ks : QKeySequence) : ℕ :=
  if ks.key 0 = 0 then 0
  else if ks.key 1 = 0 then 1
  else if ks.key 2 = 0 then 2
  else if ks.key 3 = 0 then 3
  else 4

/-- `QKeySequence::isEmpty()` of the Qt library: the sequence has no key. -/
def QKeySequence.isEmpty (ks : QKeySequence) : Bool := decide (ks.key 0 = 0)

/-- `QKeySequence::operator[](uint index)` of the Qt library: the key in slot `index`
(the library requires `index < 4`). -/
def QKeySequence.index (ks : QKeySequence) (i : ℕ) : ℕ :=
  if h : i < 4 then ks.key ⟨i, h⟩ else 0

/-- The keys of a key sequence, in order: `ks[0]`, ..., `ks[count() - 1]`. -/
def QKeySequence.keys (ks : QKeySequence) : List ℕ :=
  (List.range ks.count).map ks.index

/-- A `QKeyEvent` as far as the shortcut editor looks at it: `key()`, `modifiers()`
and `text()`. -/
structure QKeyEvent where
  key : ℕ
  modifiers : ℕ
  text : QString

/-- The state of a `ShortcutLineEdit` (src/gui/ShortcutsDialog.cpp): the array
`int m_keys[4]`, the counter `int m_keyNum` and the text shown by the `QLineEdit`
base class.  Signals and the acceptance of events are left out. -/
structure ShortcutLineEdit where
  m_keys : Fin 4 → ℕ
  m_keyNum : ℤ
  text : QString

/-- The array `m_keys` after the assignment `m_keys[idx] = v`; `none` when `idx` is
outside the four-element array, where the assignment has no defined behaviour. -/
def writeKey (keys : Fin 4 → ℕ) (idx : ℤ) (v : ℕ) : Option (Fin 4 → ℕ) :=
  if h : 0 ≤ idx ∧ idx < 4 then
    some (Function.update keys ⟨idx.toNat, by omega⟩ v)
  else none

/-- `ShortcutLineEdit::getKeySequence`:
`QKeySequence(m_keys[0], m_keys[1], m_keys[2], m_keys[3])`. -/
def ShortcutLineEdit.getKeySequence (s : ShortcutLineEdit) : QKeySequence :=
  { key := s.m_keys }

/-- `ShortcutLineEdit::clear`: all four keys and `m_keyNum` are set to 0 and the
text of the line edit is cleared. -/
def ShortcutLineEdit.clear (_s : ShortcutLineEdit) : ShortcutLineEdit :=
  { m_keys := fun _ => 0, m_keyNum := 0, text := [] }

/-- `ShortcutLineEdit::setContents`; `toString ks` stands for
`ks.toString(QKeySequence::NativeText)` of the Qt library.  The loop writes
`m_keys[i]` for `i < ks.count()`, which is at most 4. -/
def ShortcutLineEdit.setContents (toString : QKeySequence → QString) (s : ShortcutLineEdit)
    (ks : QKeySequence) : ShortcutLineEdit :=
  if toString ks = s.text then s
  else
    { m_keys := fun i => if (i : ℕ) < ks.count then ks.index i else 0
      m_keyNum := (ks.count : ℤ)
      text := toString ks }

/-- `ShortcutLineEdit::keyPressEvent`; the result is `none` when the assignment
`m_keys[m_keyNum] = nextKey` falls outside the array. -/
def ShortcutLineEdit.keyPressEvent (toString : QKeySequence → QString) (s : ShortcutLineEdit)
    (e : QKeyEvent) : Option ShortcutLineEdit :=
  if s.m_keyNum > 3 ∨ e.key = Qt.Key_Control ∨ e.key = Qt.Key_Shift ∨
      e.key = Qt.Key_Meta ∨ e.key = Qt.Key_Alt then some s
  else
    match writeKey s.m_keys s.m_keyNum (e.key ||| getModifiers e.modifiers e.text) with
    | none => none
    | some keys =>
      some { m_keys := keys, m_keyNum := s.m_keyNum + 1, text := toString { key := keys } }

/-- `ShortcutLineEdit::backspace`; the result is `none` when the assignment
`m_keys[m_keyNum] = 0` falls outside the array. -/
def ShortcutLineEdit.backspace (toString : QKeySequence → QString) (s : ShortcutLineEdit) :
    Option ShortcutLineEdit :=
  if s.m_keyNum ≤ 0 then some s
  else
    match writeKey s.m_keys (s.m_keyNum - 1) 0 with
    | none => none
    | some keys =>
      some (ShortcutLineEdit.setContents toString
        { s with m_keys := keys, m_keyNum := s.m_keyNum - 1 }
        (ShortcutLineEdit.getKeySequence { s with m_keys := keys, m_keyNum := s.m_keyNum - 1 }))

/-- A call of one of the four editing member functions of `ShortcutLineEdit`. -/
inductive EditorCall where
  | clear
  | keyPressEvent (e : QKeyEvent)
  | backspace
  | setContents (ks : QKeySequence)

/-- The editor after one call; `none` when the call accesses `m_keys` outside the
array. -/
def EditorCall.apply (toString : QKeySequence → QString) (s : ShortcutLineEdit) :
    EditorCall → Option ShortcutLineEdit
  | EditorCall.clear => some (ShortcutLineEdit.clear s)
  | EditorCall.keyPressEvent e => ShortcutLineEdit.keyPressEvent toString s e
  | EditorCall.backspace => ShortcutLineEdit.backspace toString s
  | EditorCall.setContents ks => some (ShortcutLineEdit.setContents toString s ks)

/-- The editor after a sequence of calls; `none` when one of them accesses `m_keys`
outside the array. -/
def runEditorCalls (toString : QKeySequence → QString) :
    ShortcutLineEdit → List EditorCall → Option ShortcutLineEdit
  | s, [] => some s
  | s, c :: cs =>
    match c.apply toString s with
    | none => none
    | some s1 => runEditorCalls toString s1 cs

/-- The loop of `ShortcutsDialog::prefixMatchKeySequence`, with `i` the loop counter
and `remaining` the number of iterations left before `i` reaches the bound:
`if (ks1[i] != ks2[i]) return false;`, and `return true` after the loop. -/
def prefixMatchLoop (ks1 ks2 : QKeySequence) : (remaining : ℕ) → (i : ℕ) → Bool
  | 0, _ => true
  | r + 1, i => if ks1.index i ≠ ks2.index i then false else prefixMatchLoop ks1 ks2 r (i + 1)

/-- `ShortcutsDialog::prefixMatchKeySequence`. -/
def prefixMatchKeySequence (ks1 ks2 : QKeySequence) : Bool :=
  if ks1.isEmpty || ks2.isEmpty then false
  else prefixMatchLoop ks1 ks2 (min ks1.count ks2.count) 0

/-- What `TelescopeConfigurationDialog::buttonSavePressed` uses and does not define:
the `QString` functions of the Qt library and two constants of the plug-in.

* `splitComma s` is `s.split(',', QString::SkipEmptyParts)`,
  `removeSpaces s` is `s.remove(' ')`;
* `removeDuplicates l` and `sort l` are the content of the `QStringList` after the
  call of the member function of that name;
* `startsWithSerialPortPrefix s` is `s.startsWith(SERIAL_PORT_PREFIX)`;
* `MAX_CIRCLE_COUNT` is the constant of that name. -/
structure TelescopeEnv where
  trimmed : QString → QString
  simplified : QString → QString
  removeSpaces : QString → QString
  splitComma : QString → List QString
  removeDuplicates : List QString → List QString
  sort : List QString → List QString
  toDouble : QString → ℚ
  startsWithSerialPortPrefix : QString → Bool
  MAX_CIRCLE_COUNT : ℕ

/-- The widgets of the telescope configuration dialog that `buttonSavePressed` reads
before it calls `addTelescopeAtSlot`, with their current content. -/
structure TelescopeConfigurationDialog where
  lineEditTelescopeName : QString
  lineEditHostName : QString
  checkBoxCircles : Bool
  lineEditCircleList : QString
  radioButtonTelescopeLocal : Bool
  radioButtonTelescopeConnection : Bool
  radioButtonTelescopeVirtual : Bool
  lineEditSerialPort : QString

/-- The loop of `buttonSavePressed` over `circleStrings`, from index `i` on, with the
strings not yet visited and the list `circles` built so far:
`if(i >= MAX_CIRCLE_COUNT) break; double circle = circleStrings.at(i).toDouble();
if(circle > 0.0) circles.append(circle);`. -/
def circleLoop (T : TelescopeEnv) : List QString → ℕ → List ℚ → List ℚ
  | [], _, circles => circles
  | str :: rest, i, circles =>
    if i ≥ T.MAX_CIRCLE_COUNT then circles
    else
      circleLoop T rest (i + 1)
        (if T.toDouble str > 0 then circles ++ [T.toDouble str] else circles)

/-- The list `circles` that `buttonSavePressed` has built when it reaches the
connection type. -/
def buttonSavePressed_circles (T : TelescopeEnv) (ui : TelescopeConfigurationDialog) :
    List ℚ :=
  if ui.checkBoxCircles = true ∧ ¬ (T.trimmed ui.lineEditCircleList = []) then
    circleLoop T
      (T.sort (T.removeDuplicates
        (T.splitComma (T.removeSpaces (T.simplified (T.trimmed ui.lineEditCircleList))))))
      0 []
  else []

/-- `TelescopeConfigurationDialog::buttonSavePressed`, up to its call of
`addTelescopeAtSlot`: the list of circles passed to that call, `none` when the
function returns without the call (empty name or host, serial port without the
prefix, or no connection type selected). -/
def buttonSavePressed (T : TelescopeEnv) (ui : TelescopeConfigurationDialog) :
    Option (List ℚ) :=
  if T.trimmed ui.lineEditTelescopeName = [] then none
  else if ui.lineEditHostName = [] then none
  else if ui.radioButtonTelescopeLocal then
    if T.startsWithSerialPortPrefix ui.lineEditSerialPort then
      some (buttonSavePressed_circles T ui)
    else none
  else if ui.radioButtonTelescopeConnection then some (buttonSavePressed_circles T ui)
  else if ui.radioButtonTelescopeVirtual then some (buttonSavePressed_circles T ui)
  else none

/-- A sample of the Qt functions, used to evaluate `buttonSavePressed` on concrete
inputs: strings are kept as they are, a field holds one circle string, and the number
read from a string is its length minus 2. -/
def sampleTelescopeEnv : TelescopeEnv :=
  { trimmed := fun s => s
    simplified := fun s => s
    removeSpaces := fun s => s
    splitComma := fun s => [s, s ++ s, []]
    removeDuplicates := fun l => l
    sort := fun l => l
    toDouble := fun s => (s.length : ℚ) - 2
    startsWithSerialPortPrefix := fun _ => true
    MAX_CIRCLE_COUNT := 2 }

/-- The editor right after `clear()`, used to evaluate the member functions on
concrete inputs. -/
def sampleEditor : ShortcutLineEdit :=
  { m_keys := fun _ => 0, m_keyNum := 0, text := [] }

/-- A dialog content used to evaluate `buttonSavePressed`: a name and a host of one
character, circles enabled with a circle field of three characters, connection type
"external software or a remote computer". -/
def sampleTelescopeDialog : TelescopeConfigurationDialog :=
  { lineEditTelescopeName := [{ isPrint := true, isLetterOrNumber := true, isSpace := false }]
    lineEditHostName := [{ isPrint := true, isLetterOrNumber := true, isSpace := false }]
    checkBoxCircles := true
    lineEditCircleList :=
      [{ isPrint := true, isLetterOrNumber := true, isSpace := false },
        { isPrint := true, isLetterOrNumber := true, isSpace := false },
        { isPrint := true, isLetterOrNumber := true, isSpace := false }]
    radioButtonTelescopeLocal := false
    radioButtonTelescopeConnection := true
    radioButtonTelescopeVirtual := false
    lineEditSerialPort := [] }

/-! ## Theorems -/

/-- An `int` sum that does not overflow is the mathematical sum. -/
theorem wrapInt_eq_self (z : ℤ) (h : intInRange z) : wrapInt z = z := by
  unfold intInRange at h
  unfold wrapInt
  omega

/-- C1 (as stated, refuted): with viewport `(0, 0, 10, 10)` the position `(0, 5, 0)`
lies in `[0, 10) × [0, 10)`, yet `check_in_viewport` returns false: the left edge
is excluded by the strict comparison `pos[0] > vec_viewport[0]`.  And with viewport
`(2147483647, 0, 10, 10)` the position `(2147483650, 5, 0)` lies in
`[x, x+w) × [y, y+h)`, yet `check_in_viewport` returns false: the `int` sum `x + w`
overflows. -/
theorem check_in_viewport_half_open_counterexample :
    ¬ (check_in_viewport sampleProjector ![0, 5, 0] = true ↔
        inHalfOpenViewport sampleProjector ![0, 5, 0]) ∧
      ¬ (check_in_viewport { sampleProjector with vec_viewport := ![2147483647, 0, 10, 10] }
            ![2147483650, 5, 0] = true ↔
          inHalfOpenViewport { sampleProjector with vec_viewport := ![2147483647, 0, 10, 10] }
            ![2147483650, 5, 0]) := by
  constructor
  · norm_num [check_in_viewport, inHalfOpenViewport, sampleProjector, wrapInt]
  · norm_num [check_in_viewport, inHalfOpenViewport, wrapInt]

/-- C1 (amended): for every viewport `(x, y, w, h)` whose corner sums `x + w` and
`y + h` are representable as `int` (no overflow) and every screen position `pos`,
`check_in_viewport(pos)` returns true if and only if `pos[0]` lies in the open
interval `(x, x+w)` and `pos[1]` lies in the open interval `(y, y+h)`. -/
theorem check_in_viewport_iff_open (P : Projector) (pos : Vec3d)
    (hx : intInRange (P.vec_viewport 0 + P.vec_viewport 2))
    (hy : intInRange (P.vec_viewport 1 + P.vec_viewport 3)) :
    check_in_viewport P pos = true ↔
      (((P.vec_viewport 0 : ℤ) : ℚ) < pos 0 ∧
        pos 0 < ((P.vec_viewport 0 + P.vec_viewport 2 : ℤ) : ℚ)) ∧
      (((P.vec_viewport 1 : ℤ) : ℚ) < pos 1 ∧
        pos 1 < ((P.vec_viewport 1 + P.vec_viewport 3 : ℤ) : ℚ)) := by
  unfold check_in_viewport
  rw [wrapInt_eq_self _ hx, wrapInt_eq_self _ hy]
  simp only [Bool.and_eq_true, decide_eq_true_eq, gt_iff_lt]
  tauto

/-- C1 (amended), evaluated: the viewport `(0, 0, 10, 10)` of the sample projector has
the corner sums 10 and 10, and the position `(3, 5, 0)`. -/
theorem check_in_viewport_iff_open_witness :
    (intInRange (sampleProjector.vec_viewport 0 + sampleProjector.vec_viewport 2) ∧
      intInRange (sampleProjector.vec_viewport 1 + sampleProjector.vec_viewport 3)) ∧
    (check_in_viewport sampleProjector ![3, 5, 0] = true ↔
      (((sampleProjector.vec_viewport 0 : ℤ) : ℚ) < (![3, 5, 0] : Vec3d) 0 ∧
        (![3, 5, 0] : Vec3d) 0 <
          ((sampleProjector.vec_viewport 0 + sampleProjector.vec_viewport 2 : ℤ) : ℚ)) ∧
      (((sampleProjector.vec_viewport 1 : ℤ) : ℚ) < (![3, 5, 0] : Vec3d) 1 ∧
        (![3, 5, 0] : Vec3d) 1 <
          ((sampleProjector.vec_viewport 1 + sampleProjector.vec_viewport 3 : ℤ) : ℚ))) :=
  ⟨⟨by decide, by decide⟩,
    check_in_viewport_iff_open sampleProjector ![3, 5, 0] (by decide) (by decide)⟩

/-- C2: `project_custom_check(v, win, mat)` returns exactly the conjunction of the result
of `project_custom` on `v` and of `check_in_viewport` applied to the window coordinates
that `project_custom` wrote for `v`; it leaves those window coordinates in `win`. -/
theorem project_custom_check_eq_conj (E : Env) (P : Projector) (v : Vec3f) (win : Vec3d)
    (mat : Mat4d) :
    (project_custom_check E P v win mat).ret =
        ((project_custom E P v win mat).ret &&
          check_in_viewport P (project_custom E P v win mat).out) ∧
      (project_custom_check E P v win mat).out = (project_custom E P v win mat).out := by
  have hs : (project_custom E P v win mat).self = P := rfl
  unfold project_custom_check
  cases h : (project_custom E P v win mat).ret <;> simp [h, hs]

/-- C3: `project_custom_line_check` returns true if and only if `project_custom` is true
for both endpoints and at least one of the two projected window positions satisfies
`check_in_viewport`. -/
theorem project_custom_line_check_iff (E : Env) (P : Projector) (v1 : Vec3f) (win1 : Vec3d)
    (v2 : Vec3f) (win2 : Vec3d) (mat : Mat4d) :
    (project_custom_line_check E P v1 win1 v2 win2 mat).ret = true ↔
      ((project_custom E P v1 win1 mat).ret = true ∧
        (project_custom E P v2 win2 mat).ret = true) ∧
      (check_in_viewport P (project_custom E P v1 win1 mat).out = true ∨
        check_in_viewport P (project_custom E P v2 win2 mat).out = true) := by
  have hs : (project_custom E P v1 win1 mat).self = P := rfl
  have hs2 : (project_custom E P v2 win2 mat).self = P := rfl
  unfold project_custom_line_check
  cases h1 : (project_custom E P v1 win1 mat).ret
  · simp [h1]
  · cases h2 : (project_custom E P v2 win2 mat).ret <;> simp [h1, h2, hs, hs2]

/-- C4: every frame-specific projection is the custom projection called with the
matrix of its own frame: `project_earth_equ`, `project_j2000`, `project_helio`,
`project_local` are `project_custom`, their `_check` variants are
`project_custom_check` and their `_line_check` variants (the header has none for
the local frame) are `project_custom_line_check`, each with `mat_earth_equ_to_eye`,
`mat_j2000_to_eye`, `mat_helio_to_eye`, `mat_local_to_eye` respectively. -/
theorem project_frame_eq_project_custom (E : Env) (P : Projector) (v v2 win win2 : Vec3d) :
    (project_earth_equ E P v win = project_custom E P v win P.mat_earth_equ_to_eye ∧
      project_j2000 E P v win = project_custom E P v win P.mat_j2000_to_eye ∧
      project_helio E P v win = project_custom E P v win P.mat_helio_to_eye ∧
      project_local E P v win = project_custom E P v win P.mat_local_to_eye) ∧
    (project_earth_equ_check E P v win =
        project_custom_check E P (E.toVec3f v) win P.mat_earth_equ_to_eye ∧
      project_j2000_check E P v win =
        project_custom_check E P (E.toVec3f v) win P.mat_j2000_to_eye ∧
      project_helio_check E P v win =
        project_custom_check E P (E.toVec3f v) win P.mat_helio_to_eye ∧
      project_local_check E P v win =
        project_custom_check E P (E.toVec3f v) win P.mat_local_to_eye) ∧
    (project_earth_equ_line_check E P v win v2 win2 =
        project_custom_line_check E P (E.toVec3f v) win (E.toVec3f v2) win2
          P.mat_earth_equ_to_eye ∧
      project_j2000_line_check E P v win v2 win2 =
        project_custom_line_check E P (E.toVec3f v) win (E.toVec3f v2) win2
          P.mat_j2000_to_eye ∧
      project_helio_line_check E P v win v2 win2 =
        project_custom_line_check E P (E.toVec3f v) win (E.toVec3f v2) win2
          P.mat_helio_to_eye) :=
  ⟨⟨rfl, rfl, rfl, rfl⟩, ⟨rfl, rfl, rfl, rfl⟩, ⟨rfl, rfl, rfl⟩⟩

/-- C5: `getAimFov` returns the zoom target `zoom_move.aim` whenever an auto-zoom is
active and the current fov otherwise, so that it equals `get_fov()` when no zoom is
active. -/
theorem getAimFov_spec (P : Projector) :
    (P.flag_auto_zoom = true → getAimFov P = P.zoom_move.aim) ∧
      (P.flag_auto_zoom = false → getAimFov P = get_fov P) := by
  constructor
  · intro h
    simp [getAimFov, h]
  · intro h
    simp [getAimFov, get_fov, h]

/-- C5, evaluated: with an active zoom towards 20 degrees the aim is 20; the sample
projector has no active zoom and its aim is its fov. -/
theorem getAimFov_spec_witness :
    getAimFov { sampleProjector with flag_auto_zoom := true } = 20 ∧
      getAimFov sampleProjector = get_fov sampleProjector :=
  ⟨(getAimFov_spec { sampleProjector with flag_auto_zoom := true }).1 rfl,
    (getAimFov_spec sampleProjector).2 rfl⟩

/-- C6: `project_custom`, `project_custom_check`, `project_custom_line_check`,
`unproject_custom` and `unproject` leave the projector as it was: the state after
the call is the state before it, for every input; in particular the projection
matrix is not recomputed. -/
theorem project_unproject_read_only (E : Env) (P : Projector) (v v2 win win2 : Vec3d)
    (x y : ℚ) (mat : Mat4d) :
    (project_custom E P v win mat).self = P ∧
      (project_custom_check E P v win mat).self = P ∧
      (project_custom_line_check E P v win v2 win2 mat).self = P ∧
      (unproject_custom E P x y v mat).self = P ∧
      (unproject E P x y mat v).self = P := by
  refine ⟨rfl, ?_, ?_, rfl, rfl⟩
  · simp only [project_custom_check]
    split <;> rfl
  · simp only [project_custom_line_check]
    split
    · split <;> rfl
    · rfl

/-- The perspective matrix applied to a homogeneous vector. -/
theorem perspectiveMatrix_mulVec (f a zN zF : ℚ) (e : Fin 4 → ℚ) :
    (perspectiveMatrix f a zN zF).mulVec e =
      ![f / a * e 0, f * e 1,
        (zF + zN) / (zN - zF) * e 2 + 2 * zF * zN / (zN - zF) * e 3, -e 2] := by
  ext i
  fin_cases i <;>
    simp [perspectiveMatrix, Matrix.mulVec, Matrix.dotProduct, Fin.sum_univ_four]

/-- The last component of a point transformed by a matrix whose bottom row is
`(0, 0, 0, 1)` is 1. -/
theorem mulVec_hom_three (mat : Mat4d) (hmat : mat 3 = ![0, 0, 0, 1]) (v : Vec3d) :
    (mat.mulVec (hom v)) 3 = 1 := by
  simp [Matrix.mulVec, Matrix.dotProduct, Fin.sum_univ_four, hmat, hom]

/-- The modelled `gluProject` under a perspective projection matrix, in terms of the
eye coordinates `e` of the point. -/
theorem gluProject_perspective (f a zN zF : ℚ) (mat : Mat4d) (vp : Vec4i) (v win : Vec3d) :
    gluProject v mat (perspectiveMatrix f a zN zF) vp win =
      if (mat.mulVec (hom v)) 2 = 0 then win
      else
        ![(f / a * (mat.mulVec (hom v)) 0 / -(mat.mulVec (hom v)) 2 * (1 / 2) + 1 / 2) *
              ((vp 2 : ℤ) : ℚ) + ((vp 0 : ℤ) : ℚ),
          (f * (mat.mulVec (hom v)) 1 / -(mat.mulVec (hom v)) 2 * (1 / 2) + 1 / 2) *
              ((vp 3 : ℤ) : ℚ) + ((vp 1 : ℤ) : ℚ),
          ((zF + zN) / (zN - zF) * (mat.mulVec (hom v)) 2 +
              2 * zF * zN / (zN - zF) * (mat.mulVec (hom v)) 3) / -(mat.mulVec (hom v)) 2 *
              (1 / 2) + 1 / 2] := by
  unfold gluProject
  simp only [perspectiveMatrix_mulVec]
  simp

/-- Sign of the window depth: for clipping planes `0 < zN < zF` and a point at
depth `d ≠ 0` the window z of the perspective projection is below 1 exactly when
`0 < d < zF`. -/
theorem window_depth_lt_one_iff (zN zF d : ℚ) (hN : 0 < zN) (hF : zN < zF) (hd : d ≠ 0) :
    ((zF + zN) / (zN - zF) * (-d) + 2 * zF * zN / (zN - zF) * 1) / d * (1 / 2) + 1 / 2 < 1 ↔
      0 < d ∧ d < zF := by
  have hk : zN - zF ≠ 0 := ne_of_lt (by linarith)
  have hk2 : 0 < zF - zN := by linarith
  have key : ((zF + zN) / (zN - zF) * (-d) + 2 * zF * zN / (zN - zF) * 1) / d * (1 / 2) + 1 / 2 - 1
      = zN / (zF - zN) * ((d - zF) / d) := by
    have : zF - zN ≠ 0 := ne_of_gt hk2
    field_simp
    ring
  have hpos : 0 < zN / (zF - zN) := div_pos hN hk2
  rw [← sub_neg, key, mul_neg_iff]
  constructor
  · rintro (⟨_, h⟩ | ⟨h, _⟩)
    · rcases div_neg_iff.mp h with ⟨h1, h2⟩ | ⟨h1, h2⟩
      · exfalso; linarith
      · exact ⟨h2, by linarith⟩
    · exfalso; linarith
  · rintro ⟨h1, h2⟩
    exact Or.inl ⟨hpos, div_neg_of_neg_of_pos (by linarith) h1⟩

/-- C7 (amended): for every point `v`, every modelview matrix with bottom row
`(0, 0, 0, 1)` and every perspective projection matrix with `0 < zN < zF`,
`project_custom` returns true if and only if the point lies in front of the observer
and nearer than the far clipping plane (its depth `d` in eye space satisfies
`0 < d < zF`); at depth 0 `gluProject` writes nothing and the result is the test
`win[2] < 1` on the content that `win` had before the call. -/
theorem project_custom_true_iff_depth (E : Env) (hE : E.gluProject = gluProject)
    (P : Projector) (f aspect zN zF : ℚ)
    (hP : P.mat_projection = perspectiveMatrix f aspect zN zF)
    (hN : 0 < zN) (hF : zN < zF) (mat : Mat4d) (hmat : mat 3 = ![0, 0, 0, 1])
    (v win : Vec3d) :
    (project_custom E P v win mat).ret = true ↔
      (0 < eyeDepth mat v ∧ eyeDepth mat v < zF) ∨ (eyeDepth mat v = 0 ∧ win 2 < 1) := by
  unfold project_custom
  simp only [hE, hP, gluProject_perspective, decide_eq_true_eq, mulVec_hom_three mat hmat v]
  unfold eyeDepth
  by_cases h0 : (mat.mulVec (hom v)) 2 = 0
  · simp [h0]
  · have hd : -(mat.mulVec (hom v)) 2 ≠ 0 := neg_ne_zero.mpr h0
    have hw := window_depth_lt_one_iff zN zF (-(mat.mulVec (hom v)) 2) hN hF hd
    simp only [neg_neg] at hw
    simp only [if_neg h0, Matrix.cons_val_two, Matrix.tail_cons, Matrix.head_cons]
    rw [hw]
    simp [h0]

/-- C7 (as stated, refuted): with clipping planes 1 and 2 and the identity modelview
matrix the point `(0, 0, -3)` is straight in front of the observer, at depth 3, and
`project_custom` returns false for it: its window z is not below 1 because it lies
beyond the far plane. -/
theorem project_custom_not_behind_counterexample :
    ¬ ((project_custom sampleEnv samplePerspective ![0, 0, -3] ![0, 0, 0] 1).ret = true ↔
        notBehindObserver 1 ![0, 0, -3]) := by
  norm_num [project_custom, sampleEnv, samplePerspective, gluProject_perspective, hom,
    notBehindObserver, eyeDepth]

/-- C7 (amended), evaluated: with clipping planes 1 and 2 the point `(0, 0, -3/2)` at
depth 3/2 is reported as visible. -/
theorem project_custom_true_iff_depth_witness :
    ((0 : ℚ) < 1 ∧ (1 : ℚ) < 2) ∧
      ((project_custom sampleEnv samplePerspective ![0, 0, -3 / 2] ![0, 0, 0] 1).ret = true ↔
        (0 < eyeDepth 1 ![0, 0, -3 / 2] ∧ eyeDepth 1 ![0, 0, -3 / 2] < 2) ∨
          (eyeDepth 1 ![0, 0, -3 / 2] = 0 ∧ (![0, 0, 0] : Vec3d) 2 < 1)) :=
  ⟨⟨by norm_num, by norm_num⟩,
    project_custom_true_iff_depth sampleEnv rfl samplePerspective 1 1 1 2 rfl (by norm_num)
      (by norm_num) 1 (by ext j; fin_cases j <;> rfl) ![0, 0, -3 / 2] ![0, 0, 0]⟩

/-- A right inverse is what the cofactor inversion computes. -/
theorem invertMatrix_of_mul_eq_one (A B : Mat4d) (h : A * B = 1) : invertMatrix A = some B := by
  have hdet : A.det * B.det = 1 := by rw [← Matrix.det_mul, h, Matrix.det_one]
  have hne : A.det ≠ 0 := left_ne_zero_of_mul_eq_one hdet
  have hB : B = A⁻¹ := (Matrix.inv_eq_right_inv h).symm
  unfold invertMatrix
  rw [if_neg hne, hB, Matrix.inv_def, Ring.inverse_eq_inv']

/-- The written-out inverse is a right inverse of the perspective matrix. -/
theorem perspectiveMatrix_mul_inverse (f a zN zF : ℚ) (hf : f ≠ 0) (ha : a ≠ 0)
    (hN : zN ≠ 0) (hF : zF ≠ 0) (hNF : zN - zF ≠ 0) :
    perspectiveMatrix f a zN zF * perspectiveInverse f a zN zF = 1 := by
  ext i j
  have h2 : 2 * zF * zN ≠ 0 := mul_ne_zero (mul_ne_zero two_ne_zero hF) hN
  fin_cases i <;> fin_cases j <;>
    simp [perspectiveMatrix, perspectiveInverse, Matrix.mul_apply, Fin.sum_univ_four,
      Matrix.vecHead, Matrix.vecTail] <;>
    first
      | (field_simp; ring)
      | field_simp

/-- The written-out inverse applied to a homogeneous vector. -/
theorem perspectiveInverse_mulVec (f a zN zF : ℚ) (n : Fin 4 → ℚ) :
    (perspectiveInverse f a zN zF).mulVec n =
      ![a / f * n 0, 1 / f * n 1, -n 3,
        (zN - zF) / (2 * zF * zN) * n 2 + (zF + zN) / (2 * zF * zN) * n 3] := by
  ext i
  fin_cases i <;>
    simp [perspectiveInverse, Matrix.mulVec, Matrix.dotProduct, Fin.sum_univ_four]

/-- The modelled `gluUnProject` under a perspective projection matrix and an
invertible modelview matrix, in terms of the inverse `matInv` of the latter. -/
theorem gluUnProject_perspective (f a zN zF : ℚ) (hf : f ≠ 0) (ha : a ≠ 0)
    (hN : zN ≠ 0) (hF : zF ≠ 0) (hNF : zN - zF ≠ 0) (mat matInv : Mat4d)
    (hinv : mat * matInv = 1) (vp : Vec4i) (x y z : ℚ) (v : Vec3d) :
    gluUnProject x y z mat (perspectiveMatrix f a zN zF) vp v =
      if (matInv.mulVec ((perspectiveInverse f a zN zF).mulVec
            ![(x - ((vp 0 : ℤ) : ℚ)) / ((vp 2 : ℤ) : ℚ) * 2 - 1,
              (y - ((vp 1 : ℤ) : ℚ)) / ((vp 3 : ℤ) : ℚ) * 2 - 1, z * 2 - 1, 1])) 3 = 0 then v
      else
        dehom (matInv.mulVec ((perspectiveInverse f a zN zF).mulVec
            ![(x - ((vp 0 : ℤ) : ℚ)) / ((vp 2 : ℤ) : ℚ) * 2 - 1,
              (y - ((vp 1 : ℤ) : ℚ)) / ((vp 3 : ℤ) : ℚ) * 2 - 1, z * 2 - 1, 1])) := by
  have h1 : (perspectiveMatrix f a zN zF * mat) * (matInv * perspectiveInverse f a zN zF) = 1 := by
    rw [Matrix.mul_assoc, ← Matrix.mul_assoc mat, hinv, Matrix.one_mul,
      perspectiveMatrix_mul_inverse f a zN zF hf ha hN hF hNF]
  unfold gluUnProject
  rw [invertMatrix_of_mul_eq_one _ _ h1]
  simp only [← Matrix.mulVec_mulVec]
  split <;> rfl

/-- The normalised device point recovered from the window coordinates that the
perspective projection wrote is transformed back by the inverses to a combination of
the point and of the observer position. -/
theorem unproject_vector_eq (f a zN zF : ℚ) (hf : f ≠ 0) (ha : a ≠ 0) (hN : zN ≠ 0)
    (hF : zF ≠ 0) (mat matInv : Mat4d) (hinv : mat * matInv = 1)
    (hmat : mat 3 = ![0, 0, 0, 1]) (c p : Vec3d) (hc : mat.mulVec (hom c) = ![0, 0, 0, 1])
    (hd : eyeDepth mat p ≠ 0) :
    matInv.mulVec ((perspectiveInverse f a zN zF).mulVec
        ![f / a * (mat.mulVec (hom p)) 0 / eyeDepth mat p,
          f * (mat.mulVec (hom p)) 1 / eyeDepth mat p, 1, 1]) =
      (1 / eyeDepth mat p) • hom p + (1 / zF - 1 / eyeDepth mat p) • hom c := by
  have hinv2 : matInv * mat = 1 := Matrix.mul_eq_one_comm.mp hinv
  have he3 : (mat.mulVec (hom p)) 3 = 1 := mulVec_hom_three mat hmat p
  have hvec : (perspectiveInverse f a zN zF).mulVec
        ![f / a * (mat.mulVec (hom p)) 0 / eyeDepth mat p,
          f * (mat.mulVec (hom p)) 1 / eyeDepth mat p, 1, 1] =
      (1 / eyeDepth mat p) • mat.mulVec (hom p) +
        (1 / zF - 1 / eyeDepth mat p) • mat.mulVec (hom c) := by
    rw [perspectiveInverse_mulVec, hc]
    have hd2 : (mat.mulVec (hom p)) 2 = -eyeDepth mat p := by simp [eyeDepth]
    ext i
    fin_cases i
    · simp; field_simp; ring
    · simp; field_simp
    · simp [hd2]; field_simp
    · simp [he3]; field_simp; ring
  rw [hvec, Matrix.mulVec_add, Matrix.mulVec_smul, Matrix.mulVec_smul, Matrix.mulVec_mulVec,
    Matrix.mulVec_mulVec, hinv2, Matrix.one_mulVec, Matrix.one_mulVec]

/-- C8 (amended): under a perspective projection matrix with `0 < zN < zF` and an
invertible modelview matrix with bottom row `(0, 0, 0, 1)`, for every point `p` that
is not behind the viewer, projecting `p` with `project_custom` and unprojecting the
resulting window x, y with `unproject_custom` under the same matrix yields the point
`c + (zF / d) (p - c)`, where `c` is the position of the observer in object
coordinates and `d` the depth of `p` in eye space: the point of the line of sight
through `p` that lies on the far clipping plane (a multiple of `p` when `c = 0`), not
`p` itself unless `d = zF`. -/
theorem unproject_custom_project_custom (E : Env) (hE1 : E.gluProject = gluProject)
    (hE2 : E.gluUnProject = gluUnProject) (P : Projector) (f aspect zN zF : ℚ)
    (hP : P.mat_projection = perspectiveMatrix f aspect zN zF)
    (hf : f ≠ 0) (ha : aspect ≠ 0) (hN : 0 < zN) (hF : zN < zF)
    (hw : P.vec_viewport 2 ≠ 0) (hh : P.vec_viewport 3 ≠ 0)
    (mat matInv : Mat4d) (hinv : mat * matInv = 1) (hmat : mat 3 = ![0, 0, 0, 1])
    (c : Vec3d) (hc : mat.mulVec (hom c) = ![0, 0, 0, 1])
    (p win v : Vec3d) (hp : notBehindObserver mat p) :
    (unproject_custom E P ((project_custom E P p win mat).out 0)
        ((project_custom E P p win mat).out 1) v mat).out =
      fun i => c i + zF / eyeDepth mat p * (p i - c i) := by
  have hd : eyeDepth mat p ≠ 0 := ne_of_gt hp
  have he2 : (mat.mulVec (hom p)) 2 ≠ 0 := by
    intro h
    exact hd (by simp [eyeDepth, h])
  have hzF : zF ≠ 0 := ne_of_gt (by linarith)
  have hW : ((P.vec_viewport 2 : ℤ) : ℚ) ≠ 0 := by exact_mod_cast hw
  have hH : ((P.vec_viewport 3 : ℤ) : ℚ) ≠ 0 := by exact_mod_cast hh
  have hout : (project_custom E P p win mat).out =
      ![(f / aspect * (mat.mulVec (hom p)) 0 / eyeDepth mat p * (1 / 2) + 1 / 2) *
            ((P.vec_viewport 2 : ℤ) : ℚ) + ((P.vec_viewport 0 : ℤ) : ℚ),
        (f * (mat.mulVec (hom p)) 1 / eyeDepth mat p * (1 / 2) + 1 / 2) *
            ((P.vec_viewport 3 : ℤ) : ℚ) + ((P.vec_viewport 1 : ℤ) : ℚ),
        ((zF + zN) / (zN - zF) * (mat.mulVec (hom p)) 2 +
            2 * zF * zN / (zN - zF) * (mat.mulVec (hom p)) 3) / eyeDepth mat p *
            (1 / 2) + 1 / 2] := by
    unfold project_custom
    simp only [hE1, hP, gluProject_perspective, if_neg he2]
    rfl
  have hx : ((project_custom E P p win mat).out 0 - ((P.vec_viewport 0 : ℤ) : ℚ)) /
      ((P.vec_viewport 2 : ℤ) : ℚ) * 2 - 1 = f / aspect * (mat.mulVec (hom p)) 0 / eyeDepth mat p := by
    rw [hout]
    simp only [Matrix.cons_val_zero]
    field_simp
    ring
  have hy : ((project_custom E P p win mat).out 1 - ((P.vec_viewport 1 : ℤ) : ℚ)) /
      ((P.vec_viewport 3 : ℤ) : ℚ) * 2 - 1 = f * (mat.mulVec (hom p)) 1 / eyeDepth mat p := by
    rw [hout]
    simp only [Matrix.cons_val_one, Matrix.head_cons]
    field_simp
    ring
  have h3 : ((1 / eyeDepth mat p) • hom p + (1 / zF - 1 / eyeDepth mat p) • hom c) 3 = 1 / zF := by
    simp [hom]
  unfold unproject_custom
  simp only [hE2, hP]
  rw [gluUnProject_perspective f aspect zN zF hf ha (ne_of_gt hN) hzF (ne_of_lt (by linarith))
    mat matInv hinv, hx, hy]
  norm_num only
  rw [unproject_vector_eq f aspect zN zF hf ha (ne_of_gt hN) hzF mat matInv hinv hmat c p hc hd,
    h3, if_neg (one_div_ne_zero hzF)]
  ext i
  fin_cases i <;> simp [dehom, hom] <;> field_simp <;> ring

/-- C8 (as stated, refuted): with clipping planes 1 and 2, the identity modelview
matrix and viewport `(0, 0, 10, 10)`, the unit vector `(0, 0, -1)` is not behind the
viewer and is reported so, and the round trip yields `(0, 0, -2)`. -/
theorem unproject_custom_project_custom_counterexample :
    (∑ i, (![0, 0, -1] : Vec3d) i ^ 2 = 1 ∧ notBehindObserver 1 ![0, 0, -1] ∧
      (project_custom sampleEnv samplePerspective ![0, 0, -1] ![0, 0, 0] 1).ret = true) ∧
    (unproject_custom sampleEnv samplePerspective
        ((project_custom sampleEnv samplePerspective ![0, 0, -1] ![0, 0, 0] 1).out 0)
        ((project_custom sampleEnv samplePerspective ![0, 0, -1] ![0, 0, 0] 1).out 1)
        ![0, 0, 0] 1).out ≠ ![0, 0, -1] := by
  refine ⟨⟨by simp [Fin.sum_univ_three], ?_, ?_⟩, ?_⟩
  · norm_num [notBehindObserver, eyeDepth, hom]
  · norm_num [project_custom, sampleEnv, samplePerspective, gluProject_perspective, hom]
  · intro h
    have h2 := congrFun h 2
    simp only [unproject_custom, project_custom, sampleEnv, samplePerspective] at h2
    rw [gluUnProject_perspective 1 1 1 2 (by norm_num) (by norm_num) (by norm_num)
      (by norm_num) (by norm_num) 1 1 (by simp)] at h2
    norm_num [gluProject_perspective, perspectiveInverse_mulVec, hom, dehom,
      sampleProjector] at h2

/-- C8 (amended), evaluated on the input of the counterexample: the round trip of
`(0, 0, -1)` yields `0 + (2 / 1) ((0, 0, -1) - 0)`. -/
theorem unproject_custom_project_custom_witness :
    notBehindObserver 1 ![0, 0, -1] ∧
      (unproject_custom sampleEnv samplePerspective
          ((project_custom sampleEnv samplePerspective ![0, 0, -1] ![0, 0, 0] 1).out 0)
          ((project_custom sampleEnv samplePerspective ![0, 0, -1] ![0, 0, 0] 1).out 1)
          ![0, 0, 0] 1).out =
        fun i => (![0, 0, 0] : Vec3d) i +
          2 / eyeDepth 1 ![0, 0, -1] * ((![0, 0, -1] : Vec3d) i - (![0, 0, 0] : Vec3d) i) :=
  have hp : notBehindObserver 1 ![0, 0, -1] := by norm_num [notBehindObserver, eyeDepth, hom]
  ⟨hp,
    unproject_custom_project_custom sampleEnv rfl rfl samplePerspective 1 1 1 2 rfl
      (by norm_num) (by norm_num) (by norm_num) (by norm_num)
      (by simp [samplePerspective, sampleProjector])
      (by simp [samplePerspective, sampleProjector]) 1 1 (by simp)
      (by ext j; fin_cases j <;> rfl) ![0, 0, 0]
      (by ext j; fin_cases j <;> simp [hom]) ![0, 0, -1] ![0, 0, 0] ![0, 0, 0] hp⟩

/-- C9 (as stated, refuted): with clipping planes 1/4 and 1/2 and viewport
`(0, 0, 10, 10)` the point at unit depth on the optical axis is projected to the
viewport centre `(5, 5)`, and `project_custom` returns false for it. -/
theorem project_custom_optical_axis_counterexample :
    ¬ ((project_custom sampleEnv
          { sampleProjector with mat_projection := perspectiveMatrix 1 1 (1 / 4) (1 / 2) }
          ![0, 0, -1] ![0, 0, 0] 1).out 0 = 0 + 10 / 2 ∧
        (project_custom sampleEnv
          { sampleProjector with mat_projection := perspectiveMatrix 1 1 (1 / 4) (1 / 2) }
          ![0, 0, -1] ![0, 0, 0] 1).out 1 = 0 + 10 / 2 ∧
        (project_custom sampleEnv
          { sampleProjector with mat_projection := perspectiveMatrix 1 1 (1 / 4) (1 / 2) }
          ![0, 0, -1] ![0, 0, 0] 1).ret = true) := by
  norm_num [project_custom, sampleEnv, sampleProjector, gluProject_perspective, hom]

/-- C9 (amended): for every viewport `(x, y, w, h)` and every perspective projection
matrix with `0 < zN < zF`, `project_custom` of the point `(0, 0, -1)` at unit depth on
the optical axis, with the identity modelview matrix, writes the window coordinates
`(x + w/2, y + h/2)`, and it reports the point as not behind the viewer if and only if
the far clipping plane is farther than the point (`1 < zF`). -/
theorem project_custom_optical_axis (E : Env) (hE : E.gluProject = gluProject)
    (P : Projector) (f aspect zN zF : ℚ)
    (hP : P.mat_projection = perspectiveMatrix f aspect zN zF)
    (hN : 0 < zN) (hF : zN < zF) (win : Vec3d) :
    (project_custom E P ![0, 0, -1] win 1).out 0 =
        ((P.vec_viewport 0 : ℤ) : ℚ) + ((P.vec_viewport 2 : ℤ) : ℚ) / 2 ∧
      (project_custom E P ![0, 0, -1] win 1).out 1 =
        ((P.vec_viewport 1 : ℤ) : ℚ) + ((P.vec_viewport 3 : ℤ) : ℚ) / 2 ∧
      ((project_custom E P ![0, 0, -1] win 1).ret = true ↔ 1 < zF) := by
  have hw := window_depth_lt_one_iff zN zF 1 hN hF one_ne_zero
  refine ⟨?_, ?_, ?_⟩
  · simp [project_custom, hE, hP, gluProject_perspective, hom]
    ring
  · simp [project_custom, hE, hP, gluProject_perspective, hom]
    ring
  · simp only [project_custom, hE, hP, gluProject_perspective, decide_eq_true_eq,
      Matrix.one_mulVec]
    simp only [hom, Matrix.cons_val_two, Matrix.tail_cons, Matrix.head_cons,
      Matrix.cons_val_three, neg_neg, neg_eq_zero, one_ne_zero, if_false]
    rw [hw]
    simp

/-- C9 (amended), evaluated: with viewport `(0, 0, 10, 10)` and clipping planes 1
and 2 the window coordinates are `(5, 5)` and the result is true exactly when
`1 < 2`. -/
theorem project_custom_optical_axis_witness :
    ((0 : ℚ) < 1 ∧ (1 : ℚ) < 2) ∧
      (project_custom sampleEnv samplePerspective ![0, 0, -1] ![0, 0, 0] 1).out 0 =
        ((samplePerspective.vec_viewport 0 : ℤ) : ℚ) +
          ((samplePerspective.vec_viewport 2 : ℤ) : ℚ) / 2 :=
  ⟨⟨by norm_num, by norm_num⟩,
    (project_custom_optical_axis sampleEnv rfl samplePerspective 1 1 1 2 rfl (by norm_num)
      (by norm_num) ![0, 0, 0]).1⟩

/-- The macro `MY_MIN` computes the minimum. -/
theorem MY_MIN_eq_min (a b : ℤ) : MY_MIN a b = min a b := by
  unfold MY_MIN
  by_cases h : a < b
  · rw [if_pos h, min_eq_left (le_of_lt h)]
  · rw [if_neg h, min_eq_right (not_lt.mp h)]

/-- C10: with fov = 180 degrees the scale `getRadPerPixel` maps the angular distance
`M_PI / 2` (90 degrees) to the screen radius `min(width, height) / 2`, for every
viewport. -/
theorem getRadPerPixel_fov_180 (E : Env) (hpi : E.M_PI ≠ 0) (P : Projector)
    (hfov : P.fov = 180) :
    getRadPerPixel E P * (E.M_PI / 2) =
      ((min (P.vec_viewport 2) (P.vec_viewport 3) : ℤ) : ℚ) / 2 := by
  unfold getRadPerPixel getViewportWidth getViewportHeight
  rw [hfov, MY_MIN_eq_min]
  field_simp

/-- C10, evaluated: viewport `(0, 0, 10, 10)`, fov 180. -/
theorem getRadPerPixel_fov_180_witness :
    (sampleEnv.M_PI ≠ 0 ∧ ({ sampleProjector with fov := 180 } : Projector).fov = 180) ∧
      getRadPerPixel sampleEnv { sampleProjector with fov := 180 } * (sampleEnv.M_PI / 2) =
        ((min (sampleProjector.vec_viewport 2) (sampleProjector.vec_viewport 3) : ℤ) : ℚ) / 2 :=
  ⟨⟨by norm_num [sampleEnv], rfl⟩,
    getRadPerPixel_fov_180 sampleEnv (by norm_num [sampleEnv])
      { sampleProjector with fov := 180 } rfl⟩

/-- C11 (as stated, refuted): the claim fails for the J2000 frame, for which the class
declares neither an inverse matrix nor an unproject function. -/
theorem inverse_matrix_four_frames_counterexample :
    ¬ ∀ fr : Frame, hasInverseAndUnproject sampleEnv sampleProjector 0 0 ![0, 0, 0] fr := by
  intro h
  obtain ⟨m, hm, _⟩ := h Frame.J2000
  simp [inverseMatrix] at hm

/-- C11 (amended): for each of the three frames equatorial-of-date, heliocentric and
local the projector state holds an inverse matrix next to the forward matrix, and the
unproject operation of that frame (`unproject_earth_equ`, `unproject_helio`,
`unproject_local`) is `unproject` with that frame's inverse matrix; the J2000 frame
has a forward matrix only, no inverse matrix and no unproject operation. -/
theorem inverse_matrix_three_frames (E : Env) (P : Projector) (x y : ℚ) (v : Vec3d) :
    (hasInverseAndUnproject E P x y v Frame.EquOfDate ∧
      hasInverseAndUnproject E P x y v Frame.Helio ∧
      hasInverseAndUnproject E P x y v Frame.Local) ∧
    (unproject_earth_equ E P x y v = unproject E P x y P.inv_mat_earth_equ_to_eye v ∧
      unproject_helio E P x y v = unproject E P x y P.inv_mat_helio_to_eye v ∧
      unproject_local E P x y v = unproject E P x y P.inv_mat_local_to_eye v) ∧
    (inverseMatrix P Frame.J2000 = none ∧ unproject_frame E P x y v Frame.J2000 = none) :=
  ⟨⟨⟨P.inv_mat_earth_equ_to_eye, rfl, rfl⟩, ⟨P.inv_mat_helio_to_eye, rfl, rfl⟩,
      ⟨P.inv_mat_local_to_eye, rfl, rfl⟩⟩,
    ⟨rfl, rfl, rfl⟩, ⟨rfl, rfl⟩⟩

/-- A matrix with a right inverse has a non-zero determinant. -/
theorem det_ne_zero_of_mul_eq_one (A B : Mat4d) (h : A * B = 1) : A.det ≠ 0 := by
  have hdet : A.det * B.det = 1 := by rw [← Matrix.det_mul, h, Matrix.det_one]
  exact left_ne_zero_of_mul_eq_one hdet

/-- For an invertible matrix `inverseOrIdentity` is a two-sided inverse. -/
theorem mul_inverseOrIdentity (m : Mat4d) (h : m.det ≠ 0) :
    m * inverseOrIdentity m = 1 ∧ inverseOrIdentity m * m = 1 := by
  have hi : inverseOrIdentity m = m.det⁻¹ • m.adjugate := by
    unfold inverseOrIdentity invertMatrix
    rw [if_neg h]
  rw [hi]
  constructor
  · rw [Matrix.mul_smul, Matrix.mul_adjugate, smul_smul, inv_mul_cancel₀ h, one_smul]
  · rw [Matrix.smul_mul, Matrix.adjugate_mul, smul_smul, inv_mul_cancel₀ h, one_smul]

/-- A singular matrix is replaced by the identity. -/
theorem inverseOrIdentity_of_det_eq_zero (m : Mat4d) (h : m.det = 0) :
    inverseOrIdentity m = 1 := by
  unfold inverseOrIdentity invertMatrix
  rw [if_pos h]

/-- C12 (as stated, refuted): after `set_modelview_matrices` with identity matrices on
the sample projector with a perspective projection matrix, the forward matrix of
the equatorial frame (the identity, which is invertible) times the stored inverse is
not the identity; and after `set_modelview_matrices` with the zero matrix the stored
inverse is the identity and the product is not the identity either. -/
theorem stored_inverse_counterexample :
    (set_modelview_matrices samplePerspective 1 1 1 1).mat_earth_equ_to_eye *
        (set_modelview_matrices samplePerspective 1 1 1 1).inv_mat_earth_equ_to_eye ≠ 1 ∧
      (set_modelview_matrices samplePerspective 0 0 0 0).mat_earth_equ_to_eye *
        (set_modelview_matrices samplePerspective 0 0 0 0).inv_mat_earth_equ_to_eye ≠ 1 := by
  constructor
  · have hinv : inverseOrIdentity (perspectiveMatrix 1 1 1 2 * 1) = perspectiveInverse 1 1 1 2 := by
      unfold inverseOrIdentity
      rw [Matrix.mul_one, invertMatrix_of_mul_eq_one _ _
        (perspectiveMatrix_mul_inverse 1 1 1 2 (by norm_num) (by norm_num) (by norm_num)
          (by norm_num) (by norm_num))]
    intro h
    have h22 := congrFun (congrFun h 2) 2
    simp only [set_modelview_matrices, samplePerspective, Matrix.one_mul] at h22
    rw [hinv] at h22
    simp [perspectiveInverse] at h22
  · intro h
    have h00 := congrFun (congrFun h 0) 0
    simp [set_modelview_matrices] at h00

/-- C12 (amended): right after `set_modelview_matrices` the four forward matrices are the
supplied ones, and each stored inverse matrix (`inv_mat_earth_equ_to_eye`,
`inv_mat_helio_to_eye`, `inv_mat_local_to_eye`) is the inverse of `mat_projection`
times the forward matrix of the same frame, whenever that product is invertible: its
product with the stored inverse is the identity, on both sides. -/
theorem set_modelview_matrices_stored_inverse (P : Projector) (me mh ml mj : Mat4d)
    (fr : Frame) (m : Mat4d)
    (hm : inverseMatrix (set_modelview_matrices P me mh ml mj) fr = some m)
    (hdet : ((set_modelview_matrices P me mh ml mj).mat_projection *
      forwardMatrix (set_modelview_matrices P me mh ml mj) fr).det ≠ 0) :
    ((set_modelview_matrices P me mh ml mj).mat_earth_equ_to_eye = me ∧
      (set_modelview_matrices P me mh ml mj).mat_helio_to_eye = mh ∧
      (set_modelview_matrices P me mh ml mj).mat_local_to_eye = ml ∧
      (set_modelview_matrices P me mh ml mj).mat_j2000_to_eye = mj) ∧
    ((set_modelview_matrices P me mh ml mj).mat_projection *
        forwardMatrix (set_modelview_matrices P me mh ml mj) fr) * m = 1 ∧
    m * ((set_modelview_matrices P me mh ml mj).mat_projection *
        forwardMatrix (set_modelview_matrices P me mh ml mj) fr) = 1 := by
  refine ⟨⟨rfl, rfl, rfl, rfl⟩, ?_⟩
  cases fr with
  | J2000 => simp [inverseMatrix] at hm
  | EquOfDate =>
    have hm2 : inverseOrIdentity (P.mat_projection * me) = m := Option.some.inj hm
    rw [← hm2]
    exact mul_inverseOrIdentity _ hdet
  | Helio =>
    have hm2 : inverseOrIdentity (P.mat_projection * mh) = m := Option.some.inj hm
    rw [← hm2]
    exact mul_inverseOrIdentity _ hdet
  | Local =>
    have hm2 : inverseOrIdentity (P.mat_projection * ml) = m := Option.some.inj hm
    rw [← hm2]
    exact mul_inverseOrIdentity _ hdet

/-- C12 (amended), evaluated: the sample projector with a perspective projection
matrix and identity modelview matrices, equatorial frame. -/
theorem set_modelview_matrices_stored_inverse_witness :
    ((set_modelview_matrices samplePerspective 1 1 1 1).mat_projection *
        forwardMatrix (set_modelview_matrices samplePerspective 1 1 1 1)
          Frame.EquOfDate).det ≠ 0 ∧
      ((set_modelview_matrices samplePerspective 1 1 1 1).mat_projection *
          forwardMatrix (set_modelview_matrices samplePerspective 1 1 1 1) Frame.EquOfDate) *
        (set_modelview_matrices samplePerspective 1 1 1 1).inv_mat_earth_equ_to_eye = 1 :=
  have h : ((set_modelview_matrices samplePerspective 1 1 1 1).mat_projection *
      forwardMatrix (set_modelview_matrices samplePerspective 1 1 1 1)
        Frame.EquOfDate).det ≠ 0 := by
    have e : (set_modelview_matrices samplePerspective 1 1 1 1).mat_projection *
        forwardMatrix (set_modelview_matrices samplePerspective 1 1 1 1) Frame.EquOfDate =
        perspectiveMatrix 1 1 1 2 := by
      simp [set_modelview_matrices, samplePerspective, forwardMatrix]
    rw [e]
    exact det_ne_zero_of_mul_eq_one _ _
      (perspectiveMatrix_mul_inverse 1 1 1 2 (by norm_num) (by norm_num) (by norm_num)
        (by norm_num) (by norm_num))
  ⟨h, (set_modelview_matrices_stored_inverse samplePerspective 1 1 1 1 Frame.EquOfDate
    (set_modelview_matrices samplePerspective 1 1 1 1).inv_mat_earth_equ_to_eye rfl h).2.1⟩

/-- C13 (as stated, refuted): with a perspective projection matrix and the identity
modelview matrix the zero vector is not rejected: when `win` held `(5, 5, 0)` before
the call, `project_custom` returns true (not behind the viewer) and
`project_custom_check` returns true (visible in the viewport `(0, 0, 10, 10)`). -/
theorem project_custom_zero_vector_counterexample :
    (project_custom sampleEnv samplePerspective ![0, 0, 0] ![5, 5, 0] 1).ret = true ∧
      (project_custom_check sampleEnv samplePerspective ![0, 0, 0] ![5, 5, 0] 1).ret = true := by
  have h1 : (project_custom sampleEnv samplePerspective ![0, 0, 0] ![5, 5, 0] 1).out =
      ![5, 5, 0] := by
    simp [project_custom, sampleEnv, samplePerspective, gluProject_perspective, hom]
  have h2 : (project_custom sampleEnv samplePerspective ![0, 0, 0] ![5, 5, 0] 1).ret = true := by
    simp [project_custom, sampleEnv, samplePerspective, gluProject_perspective, hom]
  have hs : (project_custom sampleEnv samplePerspective ![0, 0, 0] ![5, 5, 0] 1).self =
      samplePerspective := rfl
  refine ⟨h2, ?_⟩
  unfold project_custom_check
  simp only [h2, hs, h1, if_true]
  norm_num [check_in_viewport, samplePerspective, sampleProjector, wrapInt]

/-- C13 (amended): `project_custom` has no error result and does not reject the
zero-length vector: under a perspective projection matrix and a modelview matrix that
maps the vector to the position of the observer, `gluProject` writes nothing, so
`win` keeps its previous content and `project_custom` returns the ordinary boolean
`win[2] < 1` of that content; `project_custom_check` returns its conjunction with
`check_in_viewport` of that content. -/
theorem project_custom_zero_vector (E : Env) (hE : E.gluProject = gluProject)
    (P : Projector) (f aspect zN zF : ℚ)
    (hP : P.mat_projection = perspectiveMatrix f aspect zN zF) (mat : Mat4d)
    (hmat : mat.mulVec (hom ![0, 0, 0]) = ![0, 0, 0, 1]) (win : Vec3d) :
    (project_custom E P ![0, 0, 0] win mat).out = win ∧
      (project_custom E P ![0, 0, 0] win mat).ret = decide (win 2 < 1) ∧
      (project_custom_check E P ![0, 0, 0] win mat).ret =
        (decide (win 2 < 1) && check_in_viewport P win) := by
  have h1 : (project_custom E P ![0, 0, 0] win mat).out = win := by
    simp [project_custom, hE, hP, gluProject_perspective, hmat]
  have h2 : (project_custom E P ![0, 0, 0] win mat).ret = decide (win 2 < 1) := by
    simp [project_custom, hE, hP, gluProject_perspective, hmat]
  have hs : (project_custom E P ![0, 0, 0] win mat).self = P := rfl
  refine ⟨h1, h2, ?_⟩
  unfold project_custom_check
  cases h : (project_custom E P ![0, 0, 0] win mat).ret <;> simp [h, hs, h1, ← h2]

/-- C13 (amended), evaluated: the sample projector with a perspective projection
matrix, the identity modelview matrix and a `win` that held `(5, 5, 0)`. -/
theorem project_custom_zero_vector_witness :
    (1 : Mat4d).mulVec (hom ![0, 0, 0]) = ![0, 0, 0, 1] ∧
      (project_custom sampleEnv samplePerspective ![0, 0, 0] ![5, 5, 0] 1).out = ![5, 5, 0] :=
  have h : (1 : Mat4d).mulVec (hom ![0, 0, 0]) = ![0, 0, 0, 1] := by simp [hom]
  ⟨h, (project_custom_zero_vector sampleEnv rfl samplePerspective 1 1 1 2 rfl 1 h ![5, 5, 0]).1⟩

/-- The clamped value lies between the bounds when the bounds are ordered. -/
theorem clampFov_mem (P : Projector) (h : P.min_fov ≤ P.max_fov) (f : ℚ) :
    P.min_fov ≤ clampFov P f ∧ clampFov P f ≤ P.max_fov := by
  unfold clampFov
  split
  · exact ⟨le_refl _, h⟩
  · split
    · exact ⟨h, le_refl _⟩
    · constructor <;> linarith

/-- The field of view after `set_fov` is the clamped request, and the bounds are
unchanged. -/
theorem set_fov_fields (focal : ℚ → ℚ) (P : Projector) (f : ℚ) :
    (set_fov focal P f).fov = clampFov P f ∧ (set_fov focal P f).min_fov = P.min_fov ∧
      (set_fov focal P f).max_fov = P.max_fov := by
  unfold set_fov
  split
  · rename_i h
    exact ⟨h.symm, rfl, rfl⟩
  · exact ⟨rfl, rfl, rfl⟩

/-- C14: for every input value `v`, below the minimum and above the maximum included,
after `set_fov(v)` the field of view satisfies `min_fov <= get_fov() <= max_fov`
(the bounds of the projector being ordered, `min_fov <= max_fov`). -/
theorem set_fov_within_bounds (focal : ℚ → ℚ) (P : Projector) (h : P.min_fov ≤ P.max_fov)
    (v : ℚ) :
    (set_fov focal P v).min_fov ≤ get_fov (set_fov focal P v) ∧
      get_fov (set_fov focal P v) ≤ (set_fov focal P v).max_fov := by
  obtain ⟨h1, h2, h3⟩ := set_fov_fields focal P v
  unfold get_fov
  rw [h1, h2, h3]
  exact clampFov_mem P h v

/-- C14, evaluated: the sample projector has bounds 1 and 180; a request of 500
leaves the fov within them. -/
theorem set_fov_within_bounds_witness :
    sampleProjector.min_fov ≤ sampleProjector.max_fov ∧
      (set_fov (fun _ => 1) sampleProjector 500).min_fov ≤
        get_fov (set_fov (fun _ => 1) sampleProjector 500) :=
  have h : sampleProjector.min_fov ≤ sampleProjector.max_fov := by
    norm_num [sampleProjector]
  ⟨h, (set_fov_within_bounds (fun _ => 1) sampleProjector h 500).1⟩

/-- The viewport after a call of `setViewport`: the requested one on success, the
previous one on failure. -/
theorem setViewport_viewport (focal : ℚ → ℚ) (P : Projector) (x y w h : ℤ) :
    (0 < w ∧ 0 < h → (setViewport focal P x y w h).error = none ∧
        getViewport (setViewport focal P x y w h).self = ![x, y, w, h]) ∧
      (¬ (0 < w ∧ 0 < h) →
        (setViewport focal P x y w h).error = some ProjectorError.InvalidViewport ∧
        (setViewport focal P x y w h).self = P) := by
  unfold setViewport
  constructor
  · intro hv
    rw [if_pos hv]
    exact ⟨rfl, rfl⟩
  · intro hv
    rw [if_neg hv]
    exact ⟨rfl, rfl⟩

/-- A call of `setViewport` keeps the width and the height of the stored viewport
positive. -/
theorem setViewport_preserves (focal : ℚ → ℚ) (P : Projector) (x y w h : ℤ)
    (hP : 0 < P.vec_viewport 2 ∧ 0 < P.vec_viewport 3) :
    0 < (setViewport focal P x y w h).self.vec_viewport 2 ∧
      0 < (setViewport focal P x y w h).self.vec_viewport 3 := by
  by_cases hv : 0 < w ∧ 0 < h
  · have h1 := ((setViewport_viewport focal P x y w h).1 hv).2
    unfold getViewport at h1
    rw [h1]
    exact hv
  · rw [((setViewport_viewport focal P x y w h).2 hv).2]
    exact hP

/-- Every viewport setter keeps the width and the height of the stored viewport
positive. -/
theorem ViewportCall.run_preserves (focal : ℚ → ℚ) (P : Projector) (c : ViewportCall)
    (hP : 0 < P.vec_viewport 2 ∧ 0 < P.vec_viewport 3) :
    0 < (c.run focal P).self.vec_viewport 2 ∧ 0 < (c.run focal P).self.vec_viewport 3 := by
  cases c <;> exact setViewport_preserves focal P _ _ _ _ hP

/-- C15: `setViewport(x, y, w, h)` fails with `InvalidViewport` whenever `w <= 0` or
`h <= 0` and leaves the projector, its stored viewport included, unchanged; starting
from a viewport of positive width and height, after every sequence of calls of
`setViewport`, `setViewportPosX`, `setViewportPosY`, `setViewportWidth` and
`setViewportHeight` the viewport returned by `getViewport` has width > 0 and
height > 0. -/
theorem setViewport_invalid_rejected (focal : ℚ → ℚ) (P : Projector) :
    (∀ x y w h : ℤ, w ≤ 0 ∨ h ≤ 0 →
      (setViewport focal P x y w h).error = some ProjectorError.InvalidViewport ∧
        getViewport (setViewport focal P x y w h).self = getViewport P) ∧
    (0 < getViewport P 2 ∧ 0 < getViewport P 3 →
      ∀ calls : List ViewportCall,
        0 < getViewport (runViewportCalls focal P calls) 2 ∧
          0 < getViewport (runViewportCalls focal P calls) 3) := by
  constructor
  · intro x y w h hwh
    have hv : ¬ (0 < w ∧ 0 < h) := by
      rintro ⟨h1, h2⟩
      rcases hwh with h3 | h3 <;> omega
    obtain ⟨h1, h2⟩ := (setViewport_viewport focal P x y w h).2 hv
    exact ⟨h1, by rw [h2]⟩
  · intro hP calls
    unfold getViewport at hP ⊢
    induction calls generalizing P with
    | nil => exact hP
    | cons c cs ih => exact ih (c.run focal P).self (ViewportCall.run_preserves focal P c hP)

/-- C15, evaluated: on the sample projector, whose viewport is `(0, 0, 10, 10)`, a
width of 0 is rejected, and after a rejected and an accepted call the width is
positive. -/
theorem setViewport_invalid_rejected_witness :
    (setViewport (fun _ => 1) sampleProjector 0 0 0 5).error =
        some ProjectorError.InvalidViewport ∧
      0 < getViewport (runViewportCalls (fun _ => 1) sampleProjector
        [ViewportCall.setViewportWidth (-3), ViewportCall.setViewport 1 2 30 40]) 2 :=
  ⟨((setViewport_invalid_rejected (fun _ => 1) sampleProjector).1 0 0 0 5
      (Or.inl (le_refl 0))).1,
    ((setViewport_invalid_rejected (fun _ => 1) sampleProjector).2
      ⟨by decide, by decide⟩ _).1⟩

/-- C16 (as stated, refuted): the sample projector has `max_fov = 180`; after
`zoom_to(500, 2)` and one `update_auto_zoom` step of 2 units the fov is 180, not the
target 500: the target is written through the clamped setter. -/
theorem zoom_to_update_reaches_target_counterexample :
    get_fov (update_auto_zoom (fun t => t) (fun _ => 1) (zoom_to sampleProjector 500 2) 2) =
        180 ∧
      get_fov (update_auto_zoom (fun t => t) (fun _ => 1) (zoom_to sampleProjector 500 2) 2) ≠
        500 := by
  have h : get_fov (update_auto_zoom (fun t => t) (fun _ => 1)
      (zoom_to sampleProjector 500 2) 2) = 180 := by
    norm_num [update_auto_zoom, zoom_to, sampleProjector, clampFov, init_project_matrix,
      get_fov]
  refine ⟨h, ?_⟩
  rw [h]
  norm_num

/-- C16 (amended): after `zoom_to(target, duration)` followed by one `update_auto_zoom`
step that covers exactly the whole (positive) duration, the zoom is no longer active,
so `getAimFov()` equals `get_fov()`, and `get_fov()` is the target brought into
`[min_fov, max_fov]`: it equals `target` exactly whenever
`min_fov <= target <= max_fov`. -/
theorem zoom_to_update_reaches_target (ease focal : ℚ → ℚ) (P : Projector)
    (target duration : ℚ) (hd : 0 < duration) :
    (P.min_fov ≤ target ∧ target ≤ P.max_fov →
      get_fov (update_auto_zoom ease focal (zoom_to P target duration) duration) = target) ∧
      get_fov (update_auto_zoom ease focal (zoom_to P target duration) duration) =
        clampFov P target ∧
      (update_auto_zoom ease focal (zoom_to P target duration) duration).flag_auto_zoom = false ∧
      getAimFov (update_auto_zoom ease focal (zoom_to P target duration) duration) =
        get_fov (update_auto_zoom ease focal (zoom_to P target duration) duration) := by
  have hstep : (zoom_to P target duration).zoom_move.coef +
      (zoom_to P target duration).zoom_move.speed * duration ≥ 1 := by
    simp only [zoom_to]
    rw [zero_add, one_div, inv_mul_cancel₀ (ne_of_gt hd)]
  have hflag : (zoom_to P target duration).flag_auto_zoom = true := rfl
  have hrun : update_auto_zoom ease focal (zoom_to P target duration) duration =
      init_project_matrix focal
        { zoom_to P target duration with
          fov := clampFov (zoom_to P target duration) (zoom_to P target duration).zoom_move.aim
          zoom_move := { (zoom_to P target duration).zoom_move with coef := 1 }
          flag_auto_zoom := false } := by
    unfold update_auto_zoom
    rw [if_pos hflag, if_pos hstep]
  have hfov : get_fov (update_auto_zoom ease focal (zoom_to P target duration) duration) =
      clampFov P target := by
    rw [hrun]
    rfl
  refine ⟨?_, hfov, ?_, ?_⟩
  · rintro ⟨h1, h2⟩
    rw [hfov]
    unfold clampFov
    rw [if_neg (not_lt.mpr h1), if_neg (not_lt.mpr h2)]
  · rw [hrun]
    rfl
  · rw [hrun]
    simp [getAimFov, get_fov, init_project_matrix]

/-- C16 (amended), evaluated: a zoom of the sample projector, whose bounds are 1 and
180, to 10 degrees in 2 units of time, advanced by 2 units. -/
theorem zoom_to_update_reaches_target_witness :
    ((0 : ℚ) < 2 ∧ sampleProjector.min_fov ≤ 10 ∧ 10 ≤ sampleProjector.max_fov) ∧
      get_fov (update_auto_zoom (fun t => t) (fun _ => 1) (zoom_to sampleProjector 10 2) 2) = 10 :=
  ⟨⟨by norm_num, by norm_num [sampleProjector], by norm_num [sampleProjector]⟩,
    (zoom_to_update_reaches_target (fun t => t) (fun _ => 1) sampleProjector 10 2
      (by norm_num)).1 ⟨by norm_num [sampleProjector], by norm_num [sampleProjector]⟩⟩

/-- The clipping planes after a call of `set_clipping_planes`: the requested ones on
success, the previous ones on failure. -/
theorem set_clipping_planes_planes (focal : ℚ → ℚ) (P : Projector) (znear zfar : ℚ) :
    (0 < znear ∧ znear < zfar → (set_clipping_planes focal P znear zfar).error = none ∧
        get_clipping_planes (set_clipping_planes focal P znear zfar).self = (znear, zfar)) ∧
      (¬ (0 < znear ∧ znear < zfar) →
        (set_clipping_planes focal P znear zfar).error =
            some ProjectorError.InvalidClippingRange ∧
          (set_clipping_planes focal P znear zfar).self = P) := by
  unfold set_clipping_planes
  constructor
  · intro hv
    rw [if_pos hv]
    exact ⟨rfl, rfl⟩
  · intro hv
    rw [if_neg hv]
    exact ⟨rfl, rfl⟩

/-- C17: `set_clipping_planes(near, far)` fails with `InvalidClippingRange` whenever
`near <= 0` or `far <= near` and leaves the planes as they were; for a valid pair
`get_clipping_planes` returns exactly the values that were set; starting from planes
with `0 < near < far`, after every sequence of `set_clipping_planes` calls the planes
returned by `get_clipping_planes` satisfy `0 < near < far`. -/
theorem set_clipping_planes_spec (focal : ℚ → ℚ) (P : Projector) :
    (∀ znear zfar : ℚ, znear ≤ 0 ∨ zfar ≤ znear →
      (set_clipping_planes focal P znear zfar).error =
          some ProjectorError.InvalidClippingRange ∧
        get_clipping_planes (set_clipping_planes focal P znear zfar).self =
          get_clipping_planes P) ∧
    (∀ znear zfar : ℚ, 0 < znear ∧ znear < zfar →
      (set_clipping_planes focal P znear zfar).error = none ∧
        get_clipping_planes (set_clipping_planes focal P znear zfar).self = (znear, zfar)) ∧
    (0 < (get_clipping_planes P).1 ∧ (get_clipping_planes P).1 < (get_clipping_planes P).2 →
      ∀ calls : List (ℚ × ℚ),
        0 < (get_clipping_planes (runClippingCalls focal P calls)).1 ∧
          (get_clipping_planes (runClippingCalls focal P calls)).1 <
            (get_clipping_planes (runClippingCalls focal P calls)).2) := by
  refine ⟨?_, ?_, ?_⟩
  · intro znear zfar hbad
    have hv : ¬ (0 < znear ∧ znear < zfar) := by
      rintro ⟨h1, h2⟩
      rcases hbad with h3 | h3 <;> linarith
    obtain ⟨h1, h2⟩ := (set_clipping_planes_planes focal P znear zfar).2 hv
    exact ⟨h1, by rw [h2]⟩
  · intro znear zfar hv
    exact (set_clipping_planes_planes focal P znear zfar).1 hv
  · intro hP calls
    induction calls generalizing P with
    | nil => exact hP
    | cons c cs ih =>
      apply ih
      by_cases hv : 0 < c.1 ∧ c.1 < c.2
      · rw [((set_clipping_planes_planes focal P c.1 c.2).1 hv).2]
        exact hv
      · rw [((set_clipping_planes_planes focal P c.1 c.2).2 hv).2]
        exact hP

/-- C17, evaluated: on the sample projector, whose planes are 1 and 2, the pair
`(0, 5)` is rejected, the pair `(1/10, 100)` is stored, and after a rejected and an
accepted call the planes are ordered. -/
theorem set_clipping_planes_spec_witness :
    (set_clipping_planes (fun _ => 1) sampleProjector 0 5).error =
        some ProjectorError.InvalidClippingRange ∧
      get_clipping_planes (set_clipping_planes (fun _ => 1) sampleProjector (1 / 10) 100).self =
        (1 / 10, 100) ∧
      0 < (get_clipping_planes
        (runClippingCalls (fun _ => 1) sampleProjector [(3, 2), (1 / 2, 7)])).1 :=
  ⟨((set_clipping_planes_spec (fun _ => 1) sampleProjector).1 0 5 (Or.inl (le_refl 0))).1,
    ((set_clipping_planes_spec (fun _ => 1) sampleProjector).2.1 (1 / 10) 100
      ⟨by norm_num, by norm_num⟩).2,
    ((set_clipping_planes_spec (fun _ => 1) sampleProjector).2.2
      ⟨by norm_num [get_clipping_planes, sampleProjector],
        by norm_num [get_clipping_planes, sampleProjector]⟩ _).1⟩

/-- C18: `getType()` of the base projector is `PERSPECTIVE_PROJECTOR` in every state, so
it is the same before and after every mutator: `setMaskType`, `setViewport` and its
single-component variants, `set_fov`, `zoom_to`, `update_auto_zoom`,
`set_clipping_planes`, `set_modelview_matrices`, `setFlagGravityLabels`, and any other
change of the state (`setMaxFov` included). -/
theorem getType_unchanged (focal ease : ℚ → ℚ) (P : Projector) (m : PROJECTOR_MASK_TYPE)
    (gravity : Bool) (c : ViewportCall) (x y w h : ℤ) (f aim duration dt znear zfar : ℚ)
    (me mh ml mj : Mat4d) :
    getType P = PROJECTOR_TYPE.PERSPECTIVE_PROJECTOR ∧
      (∀ Q : Projector, getType Q = getType P) ∧
      getType (setMaskType P m) = getType P ∧
      getType (setViewport focal P x y w h).self = getType P ∧
      getType (c.run focal P).self = getType P ∧
      getType (set_fov focal P f) = getType P ∧
      getType (zoom_to P aim duration) = getType P ∧
      getType (update_auto_zoom ease focal P dt) = getType P ∧
      getType (set_clipping_planes focal P znear zfar).self = getType P ∧
      getType (set_modelview_matrices P me mh ml mj) = getType P ∧
      getType (setFlagGravityLabels P gravity) = getType P :=
  ⟨rfl, fun _ => rfl, rfl, rfl, rfl, rfl, rfl, rfl, rfl, rfl, rfl⟩

/-- C19: `setMaskType(m)` makes `getMaskType()` return `m` and changes no other member
of the projector, so `getType()`, the viewport, the fov and the results of
`check_in_viewport`, `project_custom` and `project_custom_check` for every input are
the same before and after the call. -/
theorem setMaskType_frame (E : Env) (P : Projector) (m : PROJECTOR_MASK_TYPE)
    (pos v win : Vec3d) (mat : Mat4d) :
    getMaskType (setMaskType P m) = m ∧
      setMaskType P m = { P with maskType := m } ∧
      ((setMaskType P m).fov = P.fov ∧ (setMaskType P m).min_fov = P.min_fov ∧
        (setMaskType P m).max_fov = P.max_fov ∧ (setMaskType P m).zNear = P.zNear ∧
        (setMaskType P m).zFar = P.zFar ∧ (setMaskType P m).vec_viewport = P.vec_viewport ∧
        (setMaskType P m).mat_projection = P.mat_projection ∧
        (setMaskType P m).mat_earth_equ_to_eye = P.mat_earth_equ_to_eye ∧
        (setMaskType P m).mat_j2000_to_eye = P.mat_j2000_to_eye ∧
        (setMaskType P m).mat_helio_to_eye = P.mat_helio_to_eye ∧
        (setMaskType P m).mat_local_to_eye = P.mat_local_to_eye ∧
        (setMaskType P m).inv_mat_earth_equ_to_eye = P.inv_mat_earth_equ_to_eye ∧
        (setMaskType P m).inv_mat_helio_to_eye = P.inv_mat_helio_to_eye ∧
        (setMaskType P m).inv_mat_local_to_eye = P.inv_mat_local_to_eye ∧
        (setMaskType P m).zoom_move = P.zoom_move ∧
        (setMaskType P m).flag_auto_zoom = P.flag_auto_zoom ∧
        (setMaskType P m).gravityLabels = P.gravityLabels) ∧
      (getType (setMaskType P m) = getType P ∧
        getViewport (setMaskType P m) = getViewport P ∧
        get_fov (setMaskType P m) = get_fov P) ∧
      check_in_viewport (setMaskType P m) pos = check_in_viewport P pos ∧
      ((project_custom E (setMaskType P m) v win mat).out = (project_custom E P v win mat).out ∧
        (project_custom E (setMaskType P m) v win mat).ret =
          (project_custom E P v win mat).ret) ∧
      ((project_custom_check E (setMaskType P m) v win mat).out =
          (project_custom_check E P v win mat).out ∧
        (project_custom_check E (setMaskType P m) v win mat).ret =
          (project_custom_check E P v win mat).ret) := by
  refine ⟨rfl, rfl, ⟨rfl, rfl, rfl, rfl, rfl, rfl, rfl, rfl, rfl, rfl, rfl, rfl, rfl, rfl, rfl,
    rfl, rfl⟩, ⟨rfl, rfl, rfl⟩, rfl, ⟨rfl, rfl⟩, ?_⟩
  have hs : ∀ Q : Projector, (project_custom E Q v win mat).self = Q := fun _ => rfl
  have ho : (project_custom E (setMaskType P m) v win mat).out =
      (project_custom E P v win mat).out := rfl
  have hr : (project_custom E (setMaskType P m) v win mat).ret =
      (project_custom E P v win mat).ret := rfl
  unfold project_custom_check
  simp only [hs, ho, hr]
  cases (project_custom E P v win mat).ret <;> exact ⟨rfl, rfl⟩

/-- The test on the typed text made by `getModifiers`. -/
theorem shift_text_condition (text : QString) :
    (match text with
      | [] => true
      | c :: _ => !c.isPrint || c.isLetterOrNumber || c.isSpace) = true ↔
      (text = [] ∨ ∃ c, text.head? = some c ∧
        (c.isPrint = false ∨ c.isLetterOrNumber = true ∨ c.isSpace = true)) := by
  cases text with
  | nil => simp
  | cons c cs => simp [or_assoc]

/-- C20: the result of `getModifiers` has the SHIFT bit if and only if the Shift
modifier is pressed and the typed text is empty or its first character is
non-printable, a letter or digit, or whitespace; it has the CTRL, META and ALT bits
exactly when the corresponding modifier is pressed; it has no other bit. -/
theorem getModifiers_bits (state : ℕ) (text : QString) :
    (getModifiers state text &&& Qt.SHIFT ≠ 0 ↔
      state &&& Qt.ShiftModifier ≠ 0 ∧
        (text = [] ∨ ∃ c, text.head? = some c ∧
          (c.isPrint = false ∨ c.isLetterOrNumber = true ∨ c.isSpace = true))) ∧
    (getModifiers state text &&& Qt.CTRL ≠ 0 ↔ state &&& Qt.ControlModifier ≠ 0) ∧
    (getModifiers state text &&& Qt.META ≠ 0 ↔ state &&& Qt.MetaModifier ≠ 0) ∧
    (getModifiers state text &&& Qt.ALT ≠ 0 ↔ state &&& Qt.AltModifier ≠ 0) ∧
    getModifiers state text &&& (Qt.SHIFT ||| Qt.CTRL ||| Qt.META ||| Qt.ALT) =
      getModifiers state text := by
  rw [← shift_text_condition]
  unfold getModifiers
  split_ifs with h1 h2 h3 h4 <;>
  refine ⟨?_, ?_, ?_, ?_, ?_⟩ <;>
  first
    | decide
    | exact ⟨fun _ => by assumption, fun _ => by decide⟩
    | exact ⟨fun h => absurd h (by decide), fun h => absurd h (by assumption)⟩

/-- An assignment inside the array succeeds and changes the addressed element only. -/
theorem writeKey_of_mem (keys : Fin 4 → ℕ) (idx : ℤ) (v : ℕ) (h : 0 ≤ idx ∧ idx < 4) :
    ∃ keys1, writeKey keys idx v = some keys1 ∧
      (∀ i : Fin 4, ((i : ℕ) : ℤ) = idx → keys1 i = v) ∧
      (∀ i : Fin 4, ((i : ℕ) : ℤ) ≠ idx → keys1 i = keys i) := by
  refine ⟨Function.update keys ⟨idx.toNat, by omega⟩ v, ?_, ?_, ?_⟩
  · unfold writeKey
    rw [dif_pos h]
  · intro i hi
    have : i = ⟨idx.toNat, by omega⟩ := by
      apply Fin.ext
      simp only
      omega
    rw [this, Function.update_same]
  · intro i hi
    have : i ≠ ⟨idx.toNat, by omega⟩ := by
      intro hc
      apply hi
      rw [hc]
      simp only
      omega
    rw [Function.update_noteq this]

/-- C21: `keyPressEvent` leaves the editor, its recorded keys included, unchanged when
four keys are already recorded (`m_keyNum > 3`) or when the pressed key is Control,
Shift, Meta or Alt; otherwise (with `m_keyNum` a position of the array, `0 <=
m_keyNum`) it stores the key combined with `getModifiers` at position `m_keyNum`,
increases `m_keyNum` by exactly one and leaves the other keys unchanged. -/
theorem keyPressEvent_spec (toString : QKeySequence → QString) (s : ShortcutLineEdit)
    (e : QKeyEvent) :
    ((s.m_keyNum > 3 ∨ e.key = Qt.Key_Control ∨ e.key = Qt.Key_Shift ∨
        e.key = Qt.Key_Meta ∨ e.key = Qt.Key_Alt) →
      ShortcutLineEdit.keyPressEvent toString s e = some s) ∧
    (¬ (s.m_keyNum > 3 ∨ e.key = Qt.Key_Control ∨ e.key = Qt.Key_Shift ∨
        e.key = Qt.Key_Meta ∨ e.key = Qt.Key_Alt) → 0 ≤ s.m_keyNum →
      ∃ s1, ShortcutLineEdit.keyPressEvent toString s e = some s1 ∧
        s1.m_keyNum = s.m_keyNum + 1 ∧
        (∀ i : Fin 4, ((i : ℕ) : ℤ) = s.m_keyNum →
          s1.m_keys i = e.key ||| getModifiers e.modifiers e.text) ∧
        (∀ i : Fin 4, ((i : ℕ) : ℤ) ≠ s.m_keyNum → s1.m_keys i = s.m_keys i)) := by
  constructor
  · intro h
    unfold ShortcutLineEdit.keyPressEvent
    rw [if_pos h]
  · intro h h0
    have hlt : s.m_keyNum < 4 := by
      have : ¬ s.m_keyNum > 3 := fun hc => h (Or.inl hc)
      omega
    obtain ⟨keys1, hw, hat, hother⟩ :=
      writeKey_of_mem s.m_keys s.m_keyNum (e.key ||| getModifiers e.modifiers e.text) ⟨h0, hlt⟩
    refine ⟨{ m_keys := keys1, m_keyNum := s.m_keyNum + 1,
              text := toString { key := keys1 } }, ?_, rfl, hat, hother⟩
    unfold ShortcutLineEdit.keyPressEvent
    rw [if_neg h, hw]

/-- C21, evaluated on the editor right after `clear()`: the key Shift alone leaves it
unchanged; the key 65 typed with Shift is recorded at position 0 with the SHIFT bit. -/
theorem keyPressEvent_spec_witness :
    ShortcutLineEdit.keyPressEvent (fun _ => []) sampleEditor
        { key := Qt.Key_Shift, modifiers := Qt.ShiftModifier, text := [] } = some sampleEditor ∧
      ∃ s1, ShortcutLineEdit.keyPressEvent (fun _ => []) sampleEditor
          { key := 65, modifiers := Qt.ShiftModifier,
            text := [{ isPrint := true, isLetterOrNumber := true, isSpace := false }] } = some s1 ∧
        s1.m_keyNum = sampleEditor.m_keyNum + 1 ∧
        (∀ i : Fin 4, ((i : ℕ) : ℤ) = sampleEditor.m_keyNum →
          s1.m_keys i = 65 ||| getModifiers Qt.ShiftModifier
            [{ isPrint := true, isLetterOrNumber := true, isSpace := false }]) ∧
        (∀ i : Fin 4, ((i : ℕ) : ℤ) ≠ sampleEditor.m_keyNum →
          s1.m_keys i = sampleEditor.m_keys i) :=
  ⟨(keyPressEvent_spec (fun _ => []) sampleEditor
      { key := Qt.Key_Shift, modifiers := Qt.ShiftModifier, text := [] }).1
      (Or.inr (Or.inr (Or.inl rfl))),
    (keyPressEvent_spec (fun _ => []) sampleEditor
      { key := 65, modifiers := Qt.ShiftModifier,
        text := [{ isPrint := true, isLetterOrNumber := true, isSpace := false }] }).2
      (by decide) (by decide)⟩

/-- The number of keys of a key sequence is at most 4. -/
theorem QKeySequence.count_le (ks : QKeySequence) : ks.count ≤ 4 := by
  unfold QKeySequence.count
  split_ifs <;> omega

/-- `setContents` leaves `m_keyNum` between 0 and 4. -/
theorem setContents_keyNum (toString : QKeySequence → QString) (s : ShortcutLineEdit)
    (ks : QKeySequence) (h : 0 ≤ s.m_keyNum ∧ s.m_keyNum ≤ 4) :
    0 ≤ (ShortcutLineEdit.setContents toString s ks).m_keyNum ∧
      (ShortcutLineEdit.setContents toString s ks).m_keyNum ≤ 4 := by
  unfold ShortcutLineEdit.setContents
  split
  · exact h
  · have := ks.count_le
    simp only
    omega

/-- Every call made on an editor with `0 <= m_keyNum <= 4` stays inside the array
`m_keys` and leaves `m_keyNum` between 0 and 4. -/
theorem EditorCall.apply_keyNum (toString : QKeySequence → QString) (s : ShortcutLineEdit)
    (c : EditorCall) (h : 0 ≤ s.m_keyNum ∧ s.m_keyNum ≤ 4) :
    ∃ s1, c.apply toString s = some s1 ∧ 0 ≤ s1.m_keyNum ∧ s1.m_keyNum ≤ 4 := by
  cases c with
  | clear => exact ⟨_, rfl, by simp [ShortcutLineEdit.clear], by simp [ShortcutLineEdit.clear]⟩
  | setContents ks => exact ⟨_, rfl, setContents_keyNum toString s ks h⟩
  | keyPressEvent e =>
    simp only [EditorCall.apply]
    by_cases hc : s.m_keyNum > 3 ∨ e.key = Qt.Key_Control ∨ e.key = Qt.Key_Shift ∨
        e.key = Qt.Key_Meta ∨ e.key = Qt.Key_Alt
    · refine ⟨s, ?_, h⟩
      unfold ShortcutLineEdit.keyPressEvent
      rw [if_pos hc]
    · have hlt : s.m_keyNum < 4 := by
        have : ¬ s.m_keyNum > 3 := fun hk => hc (Or.inl hk)
        omega
      obtain ⟨keys1, hw, _, _⟩ :=
        writeKey_of_mem s.m_keys s.m_keyNum (e.key ||| getModifiers e.modifiers e.text)
          ⟨h.1, hlt⟩
      refine ⟨{ m_keys := keys1, m_keyNum := s.m_keyNum + 1,
                text := toString { key := keys1 } }, ?_, ?_, ?_⟩
      · unfold ShortcutLineEdit.keyPressEvent
        rw [if_neg hc, hw]
      · simp only
        omega
      · simp only
        omega
  | backspace =>
    simp only [EditorCall.apply]
    by_cases hc : s.m_keyNum ≤ 0
    · refine ⟨s, ?_, h⟩
      unfold ShortcutLineEdit.backspace
      rw [if_pos hc]
    · obtain ⟨keys1, hw, _, _⟩ :=
        writeKey_of_mem s.m_keys (s.m_keyNum - 1) 0 ⟨by omega, by omega⟩
      refine ⟨_, ?_, setContents_keyNum toString
        { s with m_keys := keys1, m_keyNum := s.m_keyNum - 1 }
        (ShortcutLineEdit.getKeySequence { s with m_keys := keys1, m_keyNum := s.m_keyNum - 1 })
        ⟨by simp only; omega, by simp only; omega⟩⟩
      unfold ShortcutLineEdit.backspace
      rw [if_neg hc, hw]

/-- Every sequence of calls made on an editor with `0 <= m_keyNum <= 4` stays inside
the array and ends with `0 <= m_keyNum <= 4`. -/
theorem runEditorCalls_keyNum (toString : QKeySequence → QString) (calls : List EditorCall) :
    ∀ s : ShortcutLineEdit, 0 ≤ s.m_keyNum ∧ s.m_keyNum ≤ 4 →
      ∃ s1, runEditorCalls toString s calls = some s1 ∧ 0 ≤ s1.m_keyNum ∧ s1.m_keyNum ≤ 4 := by
  induction calls with
  | nil => exact fun s h => ⟨s, rfl, h⟩
  | cons c cs ih =>
    intro s h
    obtain ⟨s1, h1, hk⟩ := EditorCall.apply_keyNum toString s c h
    obtain ⟨s2, h2, hk2⟩ := ih s1 hk
    refine ⟨s2, ?_, hk2⟩
    simp only [runEditorCalls, h1]
    exact h2

/-- C22: starting from `clear()`, after any sequence of `clear`, `keyPressEvent`,
`backspace` and `setContents` calls no call has accessed `m_keys` outside the
four-element array (the run yields a state) and `0 <= m_keyNum <= 4` holds;
`backspace` on an empty editor (`m_keyNum = 0`) changes nothing. -/
theorem editor_keyNum_in_range (toString : QKeySequence → QString) (s0 : ShortcutLineEdit)
    (calls : List EditorCall) :
    (∃ s, runEditorCalls toString (ShortcutLineEdit.clear s0) calls = some s ∧
      0 ≤ s.m_keyNum ∧ s.m_keyNum ≤ 4) ∧
    (∀ s : ShortcutLineEdit, s.m_keyNum = 0 →
      ShortcutLineEdit.backspace toString s = some s) := by
  constructor
  · exact runEditorCalls_keyNum toString calls (ShortcutLineEdit.clear s0)
      ⟨by simp [ShortcutLineEdit.clear], by simp [ShortcutLineEdit.clear]⟩
  · intro s hs
    unfold ShortcutLineEdit.backspace
    rw [if_pos (le_of_eq hs)]

/-- C22, evaluated: `backspace` on the editor right after `clear()`. -/
theorem editor_keyNum_in_range_witness :
    sampleEditor.m_keyNum = 0 ∧
      ShortcutLineEdit.backspace (fun _ => []) sampleEditor = some sampleEditor :=
  ⟨rfl, (editor_keyNum_in_range (fun _ => []) sampleEditor []).2 sampleEditor rfl⟩

/-- The loop of `prefixMatchKeySequence` returns true exactly when the two sequences
agree at every index it visits. -/
theorem prefixMatchLoop_eq_true_iff (ks1 ks2 : QKeySequence) (r : ℕ) :
    ∀ i, prefixMatchLoop ks1 ks2 r i = true ↔
      ∀ j, i ≤ j → j < i + r → ks1.index j = ks2.index j := by
  induction r with
  | zero =>
    intro i
    simp only [prefixMatchLoop, true_iff]
    intro j h1 h2
    omega
  | succ r ih =>
    intro i
    simp only [prefixMatchLoop]
    by_cases h : ks1.index i = ks2.index i
    · simp only [h, ne_eq, not_true_eq_false, if_false]
      rw [ih (i + 1)]
      constructor
      · intro hall j h1 h2
        by_cases hj : j = i
        · rw [hj, h]
        · exact hall j (by omega) (by omega)
      · intro hall j h1 h2
        exact hall j (by omega) (by omega)
    · simp only [ne_eq, h, not_false_eq_true, if_true, Bool.false_eq_true, false_iff]
      intro hall
      exact h (hall i (le_refl i) (by omega))

/-- A key sequence is empty exactly when it has no key. -/
theorem QKeySequence.isEmpty_iff (ks : QKeySequence) : ks.isEmpty = true ↔ ks.count = 0 := by
  unfold QKeySequence.isEmpty QKeySequence.count
  by_cases h : ks.key 0 = 0
  · simp [h]
  · rw [if_neg h]
    simp only [h, decide_False, Bool.false_eq_true, false_iff]
    split_ifs <;> simp

/-- Lists of the first values of two functions: one is a prefix of the other exactly
when it is not longer and the functions agree on its indices. -/
theorem map_range_prefix_iff (f g : ℕ → ℕ) (m n : ℕ) :
    (List.range m).map f <+: (List.range n).map g ↔ m ≤ n ∧ ∀ i, i < m → f i = g i := by
  constructor
  · intro h
    have hlen : m ≤ n := by simpa using h.length_le
    refine ⟨hlen, fun i hi => ?_⟩
    have := h.getElem (n := i) (by simpa using hi)
    simpa using this
  · rintro ⟨hlen, hall⟩
    rw [List.prefix_iff_eq_take]
    apply List.ext_getElem
    · simp [hlen]
    · intro i h1 h2
      simp only [List.length_map, List.length_range] at h1
      simp [hall i h1]

/-- C23: `prefixMatchKeySequence(ks1, ks2)` returns true if and only if both sequences
are non-empty and agree on their first `min(count(ks1), count(ks2))` keys, that is,
if and only if both are non-empty and one is a prefix of the other; hence it is
symmetric in its two arguments, true for every non-empty sequence against itself,
and false whenever either sequence is empty. -/
theorem prefixMatchKeySequence_spec (ks1 ks2 : QKeySequence) :
    (prefixMatchKeySequence ks1 ks2 = true ↔
      ks1.isEmpty = false ∧ ks2.isEmpty = false ∧
        ∀ i, i < min ks1.count ks2.count → ks1.index i = ks2.index i) ∧
    (prefixMatchKeySequence ks1 ks2 = true ↔
      ks1.isEmpty = false ∧ ks2.isEmpty = false ∧
        (ks1.keys <+: ks2.keys ∨ ks2.keys <+: ks1.keys)) ∧
    prefixMatchKeySequence ks1 ks2 = prefixMatchKeySequence ks2 ks1 ∧
    (ks1.isEmpty = false → prefixMatchKeySequence ks1 ks1 = true) ∧
    (ks1.isEmpty = true ∨ ks2.isEmpty = true → prefixMatchKeySequence ks1 ks2 = false) := by
  have main : ∀ a b : QKeySequence, prefixMatchKeySequence a b = true ↔
      a.isEmpty = false ∧ b.isEmpty = false ∧
        ∀ i, i < min a.count b.count → a.index i = b.index i := by
    intro a b
    unfold prefixMatchKeySequence
    cases ha : a.isEmpty
    · cases hb : b.isEmpty
      · simp only [Bool.or_self, Bool.false_eq_true, if_false, true_and]
        rw [prefixMatchLoop_eq_true_iff]
        constructor
        · intro h i hi
          exact h i (Nat.zero_le i) (by omega)
        · intro h j _ hj
          exact h j (by omega)
      · simp
    · simp
  have hpre : (∀ i, i < min ks1.count ks2.count → ks1.index i = ks2.index i) ↔
      (ks1.keys <+: ks2.keys ∨ ks2.keys <+: ks1.keys) := by
    unfold QKeySequence.keys
    rw [map_range_prefix_iff, map_range_prefix_iff]
    constructor
    · intro h
      rcases le_total ks1.count ks2.count with hle | hle
      · exact Or.inl ⟨hle, fun i hi => h i (by rw [min_eq_left hle]; exact hi)⟩
      · exact Or.inr ⟨hle, fun i hi => (h i (by rw [min_eq_right hle]; exact hi)).symm⟩
    · rintro (⟨hle, h⟩ | ⟨hle, h⟩) i hi
      · exact h i (by rw [min_eq_left hle] at hi; exact hi)
      · exact (h i (by rw [min_eq_right hle] at hi; exact hi)).symm
  refine ⟨main ks1 ks2, ?_, ?_, ?_, ?_⟩
  · rw [main ks1 ks2, hpre]
  · rw [Bool.eq_iff_iff, main ks1 ks2, main ks2 ks1, min_comm]
    constructor
    · rintro ⟨h1, h2, h3⟩
      exact ⟨h2, h1, fun i hi => (h3 i hi).symm⟩
    · rintro ⟨h1, h2, h3⟩
      exact ⟨h2, h1, fun i hi => (h3 i hi).symm⟩
  · intro h
    rw [main ks1 ks1]
    exact ⟨h, h, fun _ _ => rfl⟩
  · intro h
    cases hb : prefixMatchKeySequence ks1 ks2
    · rfl
    · obtain ⟨h1, h2, _⟩ := (main ks1 ks2).mp hb
      rcases h with h | h
      · rw [h1] at h
        exact absurd h (by decide)
      · rw [h2] at h
        exact absurd h (by decide)

/-- C23, evaluated: the sequence with the single key 65 against itself, and against the
empty sequence. -/
theorem prefixMatchKeySequence_spec_witness :
    prefixMatchKeySequence { key := ![65, 0, 0, 0] } { key := ![65, 0, 0, 0] } = true ∧
      prefixMatchKeySequence { key := ![65, 0, 0, 0] } { key := ![0, 0, 0, 0] } = false :=
  ⟨(prefixMatchKeySequence_spec { key := ![65, 0, 0, 0] } { key := ![65, 0, 0, 0] }).2.2.2.1
      (by decide),
    (prefixMatchKeySequence_spec { key := ![65, 0, 0, 0] } { key := ![0, 0, 0, 0] }).2.2.2.2
      (Or.inr (by decide))⟩

/-- C24: when `project_custom` is false for the first endpoint,
`project_custom_line_check` returns false without projecting the second endpoint:
`win1` holds the projection of `v1` and `win2` is exactly what the caller passed in. -/
theorem project_custom_line_check_first_behind (E : Env) (P : Projector) (v1 : Vec3f)
    (win1 : Vec3d) (v2 : Vec3f) (win2 : Vec3d) (mat : Mat4d)
    (h : (project_custom E P v1 win1 mat).ret = false) :
    (project_custom_line_check E P v1 win1 v2 win2 mat).ret = false ∧
      (project_custom_line_check E P v1 win1 v2 win2 mat).out1 =
        (project_custom E P v1 win1 mat).out ∧
      (project_custom_line_check E P v1 win1 v2 win2 mat).out2 = win2 := by
  unfold project_custom_line_check
  simp only [h, Bool.false_eq_true, if_false, and_self]

/-- C24, evaluated: the first endpoint `(0, 0, 1)` lies behind the viewer of the sample
perspective projector; the second window vector keeps its content `(7, 8, 9)`. -/
theorem project_custom_line_check_first_behind_witness :
    (project_custom sampleEnv samplePerspective ![0, 0, 1] ![0, 0, 0] 1).ret = false ∧
      (project_custom_line_check sampleEnv samplePerspective ![0, 0, 1] ![0, 0, 0]
        ![0, 0, -1] ![7, 8, 9] 1).out2 = ![7, 8, 9] :=
  have h : (project_custom sampleEnv samplePerspective ![0, 0, 1] ![0, 0, 0] 1).ret = false := by
    norm_num [project_custom, sampleEnv, samplePerspective, gluProject_perspective, hom]
  ⟨h, (project_custom_line_check_first_behind sampleEnv samplePerspective ![0, 0, 1] ![0, 0, 0]
    ![0, 0, -1] ![7, 8, 9] 1 h).2.2⟩

/-- C25 (as stated, refuted): the viewport `(-2147483648, 0, -1, 10)` has width
`-1 <= 0`, and `check_in_viewport` returns true for the position `(0, 5, 0)`: the
`int` sum `x + w` overflows and wraps to `2147483647`. -/
theorem check_in_viewport_degenerate_counterexample :
    ({ sampleProjector with vec_viewport := ![-2147483648, 0, -1, 10] } : Projector).vec_viewport
        2 ≤ 0 ∧
      check_in_viewport { sampleProjector with vec_viewport := ![-2147483648, 0, -1, 10] }
        ![0, 5, 0] = true := by
  constructor
  · decide
  · norm_num [check_in_viewport, wrapInt]

/-- C25 (amended): if the viewport width is `<= 0` and the corner sum `x + w` is
representable as `int` (no overflow), or the viewport height is `<= 0` and the corner
sum `y + h` is representable as `int`, `check_in_viewport` returns false for every
position; and for every viewport the result does not depend on the depth component
`pos[2]`. -/
theorem check_in_viewport_degenerate (P : Projector) :
    ((P.vec_viewport 2 ≤ 0 ∧ intInRange (P.vec_viewport 0 + P.vec_viewport 2)) ∨
        (P.vec_viewport 3 ≤ 0 ∧ intInRange (P.vec_viewport 1 + P.vec_viewport 3)) →
      ∀ pos : Vec3d, check_in_viewport P pos = false) ∧
    (∀ (pos : Vec3d) (z : ℚ),
      check_in_viewport P ![pos 0, pos 1, z] = check_in_viewport P pos) := by
  constructor
  · intro h pos
    cases hc : check_in_viewport P pos
    · rfl
    · exfalso
      unfold check_in_viewport at hc
      simp only [Bool.and_eq_true, decide_eq_true_eq, gt_iff_lt] at hc
      obtain ⟨⟨⟨h1, h2⟩, h3⟩, h4⟩ := hc
      rcases h with ⟨h, hr⟩ | ⟨h, hr⟩
      · rw [wrapInt_eq_self _ hr, Int.cast_add] at h4
        have : ((P.vec_viewport 2 : ℤ) : ℚ) ≤ 0 := by exact_mod_cast h
        linarith
      · rw [wrapInt_eq_self _ hr, Int.cast_add] at h2
        have : ((P.vec_viewport 3 : ℤ) : ℚ) ≤ 0 := by exact_mod_cast h
        linarith
  · intro pos z
    simp [check_in_viewport]

/-- C25 (amended), evaluated: with viewport `(0, 0, 0, 10)`, whose corner sum `x + w`
is 0, the position `(0, 5, 0)` is outside. -/
theorem check_in_viewport_degenerate_witness :
    (({ sampleProjector with vec_viewport := ![0, 0, 0, 10] } : Projector).vec_viewport 2 ≤ 0 ∧
      intInRange
        (({ sampleProjector with vec_viewport := ![0, 0, 0, 10] } : Projector).vec_viewport 0 +
          ({ sampleProjector with vec_viewport := ![0, 0, 0, 10] } : Projector).vec_viewport 2)) ∧
    check_in_viewport { sampleProjector with vec_viewport := ![0, 0, 0, 10] } ![0, 5, 0] =
      false :=
  ⟨⟨by decide, by decide⟩,
    (check_in_viewport_degenerate { sampleProjector with vec_viewport := ![0, 0, 0, 10] }).1
      (Or.inl ⟨by decide, by decide⟩) ![0, 5, 0]⟩

/-- C26: for every `fov != 0` and every viewport, `getRadPerPixel()` equals
`min(width, height)` divided by the fov in radians (`fov * M_PI / 180`), and its
product with the fov in radians is `min(width, height)`. -/
theorem getRadPerPixel_eq (E : Env) (hpi : E.M_PI ≠ 0) (P : Projector) (hfov : P.fov ≠ 0) :
    getRadPerPixel E P =
        ((min (P.vec_viewport 2) (P.vec_viewport 3) : ℤ) : ℚ) / (P.fov * E.M_PI / 180) ∧
      getRadPerPixel E P * (P.fov * E.M_PI / 180) =
        ((min (P.vec_viewport 2) (P.vec_viewport 3) : ℤ) : ℚ) := by
  unfold getRadPerPixel getViewportWidth getViewportHeight
  rw [MY_MIN_eq_min]
  constructor
  · field_simp
    ring
  · field_simp

/-- C26, evaluated: the sample projector, fov 60 and viewport `(0, 0, 10, 10)`. -/
theorem getRadPerPixel_eq_witness :
    (sampleEnv.M_PI ≠ 0 ∧ sampleProjector.fov ≠ 0) ∧
      getRadPerPixel sampleEnv sampleProjector * (sampleProjector.fov * sampleEnv.M_PI / 180) =
        ((min (sampleProjector.vec_viewport 2) (sampleProjector.vec_viewport 3) : ℤ) : ℚ) :=
  ⟨⟨by norm_num [sampleEnv], by norm_num [sampleProjector]⟩,
    (getRadPerPixel_eq sampleEnv (by norm_num [sampleEnv]) sampleProjector
      (by norm_num [sampleProjector])).2⟩

/-- C27: for every viewport `(vx, vy, w, h)` with `w != 0` and `h != 0`,
`unproject(x, y, m, v)` sets `v` to `transfo4d(m)` of the normalised device point
`((x - vx) * 2 / w - 1, (y - vy) * 2 / h - 1, 1)`; for all `a`, `b` the screen point
`(vx + w (a + 1) / 2, vy + h (b + 1) / 2)` is mapped to `m` applied to `(a, b, 1)`, so
that the lower-left corner, the centre and the upper-right corner of the viewport go
to `(-1, -1, 1)`, `(0, 0, 1)` and `(1, 1, 1)` before `m` is applied. -/
theorem unproject_spec (E : Env) (P : Projector) (m : Mat4d) (v : Vec3d)
    (hw : P.vec_viewport 2 ≠ 0) (hh : P.vec_viewport 3 ≠ 0) :
    (∀ x y : ℚ, (unproject E P x y m v).out =
      E.transfo4d m
        ![(x - ((P.vec_viewport 0 : ℤ) : ℚ)) * 2 / ((P.vec_viewport 2 : ℤ) : ℚ) - 1,
          (y - ((P.vec_viewport 1 : ℤ) : ℚ)) * 2 / ((P.vec_viewport 3 : ℤ) : ℚ) - 1, 1]) ∧
    (∀ a b : ℚ,
      (unproject E P
        (((P.vec_viewport 0 : ℤ) : ℚ) + ((P.vec_viewport 2 : ℤ) : ℚ) * (a + 1) / 2)
        (((P.vec_viewport 1 : ℤ) : ℚ) + ((P.vec_viewport 3 : ℤ) : ℚ) * (b + 1) / 2) m v).out =
      E.transfo4d m ![a, b, 1]) ∧
    ((unproject E P ((P.vec_viewport 0 : ℤ) : ℚ) ((P.vec_viewport 1 : ℤ) : ℚ) m v).out =
        E.transfo4d m ![-1, -1, 1] ∧
      (unproject E P (((P.vec_viewport 0 : ℤ) : ℚ) + ((P.vec_viewport 2 : ℤ) : ℚ) / 2)
          (((P.vec_viewport 1 : ℤ) : ℚ) + ((P.vec_viewport 3 : ℤ) : ℚ) / 2) m v).out =
        E.transfo4d m ![0, 0, 1] ∧
      (unproject E P (((P.vec_viewport 0 : ℤ) : ℚ) + ((P.vec_viewport 2 : ℤ) : ℚ))
          (((P.vec_viewport 1 : ℤ) : ℚ) + ((P.vec_viewport 3 : ℤ) : ℚ)) m v).out =
        E.transfo4d m ![1, 1, 1]) := by
  have hW : ((P.vec_viewport 2 : ℤ) : ℚ) ≠ 0 := by exact_mod_cast hw
  have hH : ((P.vec_viewport 3 : ℤ) : ℚ) ≠ 0 := by exact_mod_cast hh
  have key : ∀ x y a b : ℚ,
      (x - ((P.vec_viewport 0 : ℤ) : ℚ)) * 2 / ((P.vec_viewport 2 : ℤ) : ℚ) - 1 = a →
      (y - ((P.vec_viewport 1 : ℤ) : ℚ)) * 2 / ((P.vec_viewport 3 : ℤ) : ℚ) - 1 = b →
      (unproject E P x y m v).out = E.transfo4d m ![a, b, 1] := by
    intro x y a b ha hb
    unfold unproject
    simp only [ha, hb]
  refine ⟨fun x y => rfl, fun a b => ?_, ?_, ?_, ?_⟩
  · exact key _ _ a b (by field_simp; ring) (by field_simp; ring)
  · exact key _ _ (-1) (-1) (by simp) (by simp)
  · exact key _ _ 0 0 (by field_simp; ring) (by field_simp; ring)
  · exact key _ _ 1 1 (by field_simp; ring) (by field_simp; ring)

/-- C27, evaluated: the centre `(5, 5)` of the viewport `(0, 0, 10, 10)` of the sample
projector. -/
theorem unproject_spec_witness :
    (sampleProjector.vec_viewport 2 ≠ 0 ∧ sampleProjector.vec_viewport 3 ≠ 0) ∧
      (unproject sampleEnv sampleProjector
          (((sampleProjector.vec_viewport 0 : ℤ) : ℚ) +
            ((sampleProjector.vec_viewport 2 : ℤ) : ℚ) / 2)
          (((sampleProjector.vec_viewport 1 : ℤ) : ℚ) +
            ((sampleProjector.vec_viewport 3 : ℤ) : ℚ) / 2) 1 ![0, 0, 0]).out =
        sampleEnv.transfo4d 1 ![0, 0, 1] :=
  ⟨⟨by decide, by decide⟩,
    (unproject_spec sampleEnv sampleProjector 1 ![0, 0, 0] (by decide) (by decide)).2.2.2.1⟩

/-- The loop over the circle strings keeps the circles positive and their number
within `MAX_CIRCLE_COUNT`. -/
theorem circleLoop_spec (T : TelescopeEnv) (strings : List QString) :
    ∀ (i : ℕ) (circles : List ℚ), (∀ c ∈ circles, 0 < c) → circles.length ≤ i →
      circles.length ≤ T.MAX_CIRCLE_COUNT →
      (∀ c ∈ circleLoop T strings i circles, 0 < c) ∧
        (circleLoop T strings i circles).length ≤ T.MAX_CIRCLE_COUNT := by
  induction strings with
  | nil =>
    intro i circles hpos _ hmax
    exact ⟨hpos, hmax⟩
  | cons str rest ih =>
    intro i circles hpos hlen hmax
    unfold circleLoop
    by_cases hi : i ≥ T.MAX_CIRCLE_COUNT
    · rw [if_pos hi]
      exact ⟨hpos, hmax⟩
    · rw [if_neg hi]
      apply ih
      · intro c hc
        by_cases hd : T.toDouble str > 0
        · rw [if_pos hd] at hc
          rcases List.mem_append.mp hc with h | h
          · exact hpos c h
          · rw [List.mem_singleton.mp h]
            exact hd
        · rw [if_neg hd] at hc
          exact hpos c hc
      · by_cases hd : T.toDouble str > 0
        · rw [if_pos hd, List.length_append, List.length_singleton]
          omega
        · rw [if_neg hd]
          omega
      · by_cases hd : T.toDouble str > 0
        · rw [if_pos hd, List.length_append, List.length_singleton]
          omega
        · rw [if_neg hd]
          exact hmax

/-- The list of circles built by `buttonSavePressed`: positive values, at most
`MAX_CIRCLE_COUNT` of them, none when the check box is unchecked or the trimmed
text is empty. -/
theorem buttonSavePressed_circles_spec (T : TelescopeEnv) (ui : TelescopeConfigurationDialog) :
    (∀ c ∈ buttonSavePressed_circles T ui, 0 < c) ∧
      (buttonSavePressed_circles T ui).length ≤ T.MAX_CIRCLE_COUNT ∧
      (ui.checkBoxCircles = false ∨ T.trimmed ui.lineEditCircleList = [] →
        buttonSavePressed_circles T ui = []) := by
  unfold buttonSavePressed_circles
  by_cases h : ui.checkBoxCircles = true ∧ ¬ (T.trimmed ui.lineEditCircleList = [])
  · rw [if_pos h]
    obtain ⟨h1, h2⟩ := circleLoop_spec T
      (T.sort (T.removeDuplicates
        (T.splitComma (T.removeSpaces (T.simplified (T.trimmed ui.lineEditCircleList))))))
      0 [] (by simp) (by simp) (by simp)
    refine ⟨h1, h2, ?_⟩
    rintro (hc | hc)
    · rw [h.1] at hc
      exact absurd hc (by decide)
    · exact absurd hc h.2
  · rw [if_neg h]
    exact ⟨by simp, by simp, fun _ => rfl⟩

/-- C28: in `buttonSavePressed`, for every text of the circle list field, the list of
field-of-view circles passed to `addTelescopeAtSlot` contains only values strictly
greater than 0 and has at most `MAX_CIRCLE_COUNT` entries; it is empty when the
circles check box is unchecked or the trimmed text is empty. -/
theorem buttonSavePressed_circles_passed (T : TelescopeEnv) (ui : TelescopeConfigurationDialog)
    (circles : List ℚ) (h : buttonSavePressed T ui = some circles) :
    (∀ c ∈ circles, 0 < c) ∧ circles.length ≤ T.MAX_CIRCLE_COUNT ∧
      (ui.checkBoxCircles = false ∨ T.trimmed ui.lineEditCircleList = [] → circles = []) := by
  have hc : circles = buttonSavePressed_circles T ui := by
    unfold buttonSavePressed at h
    split_ifs at h <;> exact (Option.some.inj h).symm
  rw [hc]
  exact buttonSavePressed_circles_spec T ui

/-- C28, evaluated: with at most 2 circles and the three circle strings read as 1, 4
and -2, the circles passed are 1 and 4. -/
theorem buttonSavePressed_circles_passed_witness :
    buttonSavePressed sampleTelescopeEnv sampleTelescopeDialog = some [1, 4] ∧
      ([1, 4] : List ℚ).length ≤ sampleTelescopeEnv.MAX_CIRCLE_COUNT :=
  have h : buttonSavePressed sampleTelescopeEnv sampleTelescopeDialog = some [1, 4] := by
    simp [buttonSavePressed, buttonSavePressed_circles, sampleTelescopeEnv,
      sampleTelescopeDialog, circleLoop]
    norm_num
  ⟨h, (buttonSavePressed_circles_passed sampleTelescopeEnv sampleTelescopeDialog [1, 4] h).2.1⟩

end Stellarium
